import Mathlib

/-!
# csi-rclone: mount reconciler, flag composer, locator and node publish path

A shallow embedding of `pkg/rclone/rclone.go`, `pkg/rclone/nodeserver.go` and
`pkg/rclone/controllerserver.go`.

* Go strings are byte sequences: `GoString := List Nat`, every element a byte.
* Go maps are association lists with pairwise distinct keys; the order of the
  list is the order in which a `range` loop visits the entries.
* The orchestrator is a sequential object store (`World`) with a script of
  injected API failures, a script of mount-table answers and a trace of the
  calls that were issued.
-/

namespace CsiRclone

set_option maxRecDepth 100000

/-! ## Strings -/

/-- A Go string: a sequence of bytes. -/
abbrev GoString := List Nat

/-- A Go map from strings to strings, listed in the order a `range` visits it. -/
abbrev GoMap := List (GoString × GoString)

/-- The bytes of an ASCII literal. -/
def lit (s : String) : GoString := s.data.map Char.toNat

/-- Map read `m[k]` with the comma-ok form: `none` when the key is absent. -/
def mapGet (m : GoMap) (k : GoString) : Option GoString :=
  match m with
  | [] => none
  | (k', v) :: rest => if k' = k then some v else mapGet rest k

/-- Map read `m[k]` without comma-ok: the zero value `""` when the key is absent. -/
def mapIndex (m : GoMap) (k : GoString) : GoString :=
  (mapGet m k).getD []

/-- Map write `m[k] = v` on a non-nil map. -/
def mapSet (m : GoMap) (k v : GoString) : GoMap :=
  match m with
  | [] => [(k, v)]
  | (k', v') :: rest => if k' = k then (k, v) :: rest else (k', v') :: mapSet rest k v

/-- The keys of a map. -/
def mapKeys (m : GoMap) : List GoString := m.map Prod.fst

/-- `reflect.DeepEqual` on two `map[string]string` values of which the second
is non-empty (a nil map and an empty map both have no entries here): the same
number of entries and the same value under every key of either map. -/
def deepEqualMap (a b : GoMap) : Bool :=
  a.length == b.length && a.all (fun kv => mapGet b kv.1 == some kv.2)
    && b.all (fun kv => mapGet a kv.1 == some kv.2)

/-! ## UTF-8 and `strings.ToLower` (standard library) -/

/-- The replacement character U+FFFD (`utf8.RuneError`). -/
def runeError : Nat := 0xFFFD

/-- `utf8.DecodeRuneInString`: the first rune of `s` and its width in bytes.
An ill-formed or truncated sequence decodes to `(runeError, 1)`. -/
def decodeRune (s : GoString) : Nat × Nat :=
  let cont (b : Nat) : Bool := 0x80 ≤ b && b ≤ 0xBF
  match s with
  | [] => (runeError, 0)
  | b0 :: rest =>
    if b0 < 0x80 then (b0, 1)
    else if 0xC2 ≤ b0 && b0 ≤ 0xDF then
      match rest with
      | b1 :: _ => if cont b1 then ((b0 % 0x20) * 0x40 + b1 % 0x40, 2) else (runeError, 1)
      | _ => (runeError, 1)
    else if 0xE0 ≤ b0 && b0 ≤ 0xEF then
      match rest with
      | b1 :: b2 :: _ =>
        let lo := if b0 = 0xE0 then 0xA0 else 0x80
        let hi := if b0 = 0xED then 0x9F else 0xBF
        if lo ≤ b1 && b1 ≤ hi && cont b2 then
          ((b0 % 0x10) * 0x1000 + (b1 % 0x40) * 0x40 + b2 % 0x40, 3)
        else (runeError, 1)
      | _ => (runeError, 1)
    else if 0xF0 ≤ b0 && b0 ≤ 0xF4 then
      match rest with
      | b1 :: b2 :: b3 :: _ =>
        let lo := if b0 = 0xF0 then 0x90 else 0x80
        let hi := if b0 = 0xF4 then 0x8F else 0xBF
        if lo ≤ b1 && b1 ≤ hi && cont b2 && cont b3 then
          ((b0 % 0x08) * 0x40000 + (b1 % 0x40) * 0x1000 + (b2 % 0x40) * 0x40 + b3 % 0x40, 4)
        else (runeError, 1)
      | _ => (runeError, 1)
    else (runeError, 1)

/-- `utf8.AppendRune`: the UTF-8 encoding of a rune; surrogates and values
beyond U+10FFFF are written as U+FFFD. -/
def encodeRune (r : Nat) : GoString :=
  if r < 0x80 then [r]
  else if r < 0x800 then [0xC0 + r / 0x40, 0x80 + r % 0x40]
  else if (0xD800 ≤ r && r ≤ 0xDFFF) || 0x10FFFF < r then [0xEF, 0xBF, 0xBD]
  else if r < 0x10000 then [0xE0 + r / 0x1000, 0x80 + (r / 0x40) % 0x40, 0x80 + r % 0x40]
  else [0xF0 + r / 0x40000, 0x80 + (r / 0x1000) % 0x40, 0x80 + (r / 0x40) % 0x40, 0x80 + r % 0x40]

/-- The runes a `for _, c := range s` loop yields, at most `fuel` of them. -/
def runesAux : Nat → GoString → List Nat
  | 0, _ => []
  | _, [] => []
  | fuel + 1, b :: rest =>
    let d := decodeRune (b :: rest)
    d.1 :: runesAux fuel ((b :: rest).drop d.2)

/-- The runes of a string; each rune consumes at least one byte. -/
def runes (s : GoString) : List Nat := runesAux s.length s

/-- `unicode.ToLower` on the code points whose case mapping is used below: the
ASCII and Latin-1 capitals, U+0130 (to U+0069) and U+023A (to U+2C65). The
full case table belongs to the standard library; no theorem below depends on
the value at a code point outside these ranges other than U+FFFD, which has
no case mapping. -/
def unicodeToLower (r : Nat) : Nat :=
  if 0x41 ≤ r && r ≤ 0x5A then r + 0x20
  else if 0xC0 ≤ r && r ≤ 0xDE && r ≠ 0xD7 then r + 0x20
  else if r = 0x130 then 0x69
  else if r = 0x23A then 0x2C65
  else r

/-- `strings.Map(mapping, s)` for a mapping that never returns a negative
rune: every rune of `s` is replaced by the encoding of its image, and a byte
that is not part of a well-formed sequence is read as U+FFFD. -/
def stringsMap (mapping : Nat → Nat) (s : GoString) : GoString :=
  (runes s).flatMap (fun c => encodeRune (mapping c))

/-- `strings.ToLower`: a byte-wise pass when the string is ASCII only, and
`strings.Map(unicode.ToLower, s)` otherwise. -/
def stringsToLower (s : GoString) : GoString :=
  if s.all (fun c => c < 0x80) then
    s.map (fun c => if 0x41 ≤ c && c ≤ 0x5A then c + 0x20 else c)
  else stringsMap unicodeToLower s

/-- `strings.HasPrefix`. -/
def hasPrefix (s p : GoString) : Bool := p.isPrefixOf s

/-! ## Volume identity (rclone.go) -/

/-- The Go struct `RcloneVolume`. -/
structure RcloneVolume where
  Remote : GoString
  RemotePath : GoString
  ID : GoString
  deriving DecidableEq, Repr

/-- `RcloneVolume.deploymentName`. -/
def RcloneVolume.deploymentName (r : RcloneVolume) : GoString :=
  let volumeID := lit "rclone-mounter-" ++ r.ID
  let volumeID := if volumeID.length > 63 then volumeID.take 63 else volumeID
  stringsToLower volumeID

/-! ## SHA-256 and hex encoding (standard library) -/

/-- The round constants of SHA-256. -/
def sha256K : List Nat :=
  [0x428a2f98, 0x71374491, 0xb5c0fbcf, 0xe9b5dba5, 0x3956c25b, 0x59f111f1, 0x923f82a4, 0xab1c5ed5,
   0xd807aa98, 0x12835b01, 0x243185be, 0x550c7dc3, 0x72be5d74, 0x80deb1fe, 0x9bdc06a7, 0xc19bf174,
   0xe49b69c1, 0xefbe4786, 0x0fc19dc6, 0x240ca1cc, 0x2de92c6f, 0x4a7484aa, 0x5cb0a9dc, 0x76f988da,
   0x983e5152, 0xa831c66d, 0xb00327c8, 0xbf597fc7, 0xc6e00bf3, 0xd5a79147, 0x06ca6351, 0x14292967,
   0x27b70a85, 0x2e1b2138, 0x4d2c6dfc, 0x53380d13, 0x650a7354, 0x766a0abb, 0x81c2c92e, 0x92722c85,
   0xa2bfe8a1, 0xa81a664b, 0xc24b8b70, 0xc76c51a3, 0xd192e819, 0xd6990624, 0xf40e3585, 0x106aa070,
   0x19a4c116, 0x1e376c08, 0x2748774c, 0x34b0bcb5, 0x391c0cb3, 0x4ed8aa4a, 0x5b9cca4f, 0x682e6ff3,
   0x748f82ee, 0x78a5636f, 0x84c87814, 0x8cc70208, 0x90befffa, 0xa4506ceb, 0xbef9a3f7, 0xc67178f2]

/-- The eight 32-bit chaining words of SHA-256. -/
structure ShaState where
  a : Nat
  b : Nat
  c : Nat
  d : Nat
  e : Nat
  f : Nat
  g : Nat
  h : Nat
  deriving DecidableEq, Repr

/-- The initial chaining value. -/
def shaInit : ShaState :=
  ⟨0x6a09e667, 0xbb67ae85, 0x3c6ef372, 0xa54ff53a, 0x510e527f, 0x9b05688c, 0x1f83d9ab, 0x5be0cd19⟩

/-- Rotate a 32-bit word right by `n` bits. -/
def rotr32 (x n : Nat) : Nat := ((x >>> n) ||| (x <<< (32 - n))) % 2 ^ 32

/-- Big-endian bytes of a 32-bit word. -/
def be32 (x : Nat) : GoString :=
  [(x / 2 ^ 24) % 256, (x / 2 ^ 16) % 256, (x / 2 ^ 8) % 256, x % 256]

/-- Message padding: a `0x80` byte, zeros up to 56 modulo 64, the bit length on 64 bits. -/
def shaPad (m : GoString) : GoString :=
  let l := m.length
  m ++ [0x80] ++ List.replicate ((119 - l % 64) % 64) 0 ++ be32 ((8 * l) / 2 ^ 32) ++ be32 (8 * l)

/-- Split into 64-byte blocks. -/
def shaBlocks : Nat → GoString → List GoString
  | 0, _ => []
  | fuel + 1, s => if s = [] then [] else s.take 64 :: shaBlocks fuel (s.drop 64)

/-- The sixteen big-endian words of a block. -/
def shaWords : Nat → GoString → List Nat
  | 0, _ => []
  | n + 1, s =>
    (s.getD 0 0 * 2 ^ 24 + s.getD 1 0 * 2 ^ 16 + s.getD 2 0 * 2 ^ 8 + s.getD 3 0)
      :: shaWords n (s.drop 4)

/-- Extend the message schedule by `n` words. -/
def shaSchedule : Nat → List Nat → List Nat
  | 0, w => w
  | n + 1, w =>
    let i := w.length
    let w15 := w.getD (i - 15) 0
    let w2 := w.getD (i - 2) 0
    let s0 := rotr32 w15 7 ^^^ rotr32 w15 18 ^^^ (w15 >>> 3)
    let s1 := rotr32 w2 17 ^^^ rotr32 w2 19 ^^^ (w2 >>> 10)
    shaSchedule n (w ++ [(w.getD (i - 16) 0 + s0 + w.getD (i - 7) 0 + s1) % 2 ^ 32])

/-- One round of the compression function. -/
def shaRound (s : ShaState) (kw : Nat × Nat) : ShaState :=
  let S1 := rotr32 s.e 6 ^^^ rotr32 s.e 11 ^^^ rotr32 s.e 25
  let ch := (s.e &&& s.f) ^^^ ((s.e ^^^ (2 ^ 32 - 1)) &&& s.g)
  let t1 := (s.h + S1 + ch + kw.1 + kw.2) % 2 ^ 32
  let S0 := rotr32 s.a 2 ^^^ rotr32 s.a 13 ^^^ rotr32 s.a 22
  let maj := (s.a &&& s.b) ^^^ (s.a &&& s.c) ^^^ (s.b &&& s.c)
  let t2 := (S0 + maj) % 2 ^ 32
  ⟨(t1 + t2) % 2 ^ 32, s.a, s.b, s.c, (s.d + t1) % 2 ^ 32, s.e, s.f, s.g⟩

/-- Compress one block into the chaining value. -/
def shaCompress (s : ShaState) (block : GoString) : ShaState :=
  let w := shaSchedule 48 (shaWords 16 block)
  let t := (sha256K.zip w).foldl shaRound s
  ⟨(s.a + t.a) % 2 ^ 32, (s.b + t.b) % 2 ^ 32, (s.c + t.c) % 2 ^ 32, (s.d + t.d) % 2 ^ 32,
   (s.e + t.e) % 2 ^ 32, (s.f + t.f) % 2 ^ 32, (s.g + t.g) % 2 ^ 32, (s.h + t.h) % 2 ^ 32⟩

/-- The 32 digest bytes of a chaining value. -/
def shaBytes (s : ShaState) : GoString :=
  be32 s.a ++ be32 s.b ++ be32 s.c ++ be32 s.d ++ be32 s.e ++ be32 s.f ++ be32 s.g ++ be32 s.h

/-- `sha256.New(); h.Write(m); h.Sum(nil)`. -/
def sha256 (m : GoString) : GoString :=
  let p := shaPad m
  shaBytes ((shaBlocks p.length p).foldl shaCompress shaInit)

/-- One lower-case hexadecimal digit. -/
def hexDigit (d : Nat) : Nat := if d < 10 then 0x30 + d else 0x57 + d

/-- `hex.EncodeToString`. -/
def hexEncode (bs : GoString) : GoString :=
  bs.flatMap (fun b => [hexDigit (b / 16), hexDigit (b % 16)])

/-- The label value `hex.EncodeToString(h.Sum(nil))[:63]` of `Rclone.Mount`; the
hex digest has 64 characters, so the slice is in range. -/
def secretHash (rcloneConfigData : GoString) : GoString :=
  (hexEncode (sha256 rcloneConfigData)).take 63

/-- The label map `pvDeploymentLabels` of `Rclone.Mount`. -/
def pvDeploymentLabels (vol : RcloneVolume) (rcloneConfigData : GoString) : GoMap :=
  [(lit "volumeid", vol.ID), (lit "hash", secretHash rcloneConfigData)]

/-! ## Errors -/

/-- The gRPC status codes the driver returns. -/
inductive Code
  | invalidArgument
  | internal
  | unimplemented
  deriving DecidableEq, Repr

/-- A non-nil Go `error`, by origin, with its message. -/
inductive GoError
  /-- An orchestrator answer for which `k8serrors.IsNotFound` holds. -/
  | notFound (msg : GoString)
  /-- The orchestrator refuses to create an object whose name is taken. -/
  | alreadyExists (msg : GoString)
  /-- Any other failure of an orchestrator call. -/
  | api (msg : GoString)
  /-- A host error for which `os.IsNotExist` holds. -/
  | notExist (msg : GoString)
  /-- Any other failure of a host call (file system, mount table). -/
  | host (msg : GoString)
  /-- The value of `errors.New` or `fmt.Errorf`. -/
  | plain (msg : GoString)
  /-- The value of `status.Error(code, msg)`. -/
  | status (code : Code) (msg : GoString)
  deriving DecidableEq, Repr

/-- The text `err.Error()`. -/
def GoError.text : GoError → GoString
  | .notFound m => m
  | .alreadyExists m => m
  | .api m => m
  | .notExist m => m
  | .host m => m
  | .plain m => m
  | .status _ m => m

/-- The test `err != nil && !k8serrors.IsNotFound(err)`. -/
def fatalApiError : Option GoError → Bool
  | none => false
  | some (.notFound _) => false
  | some _ => true

/-! ## Cluster objects and the world -/

/-- The fields of a `corev1.Secret` that the driver sets. -/
structure Secret where
  name : GoString
  labels : GoMap
  stringData : GoMap
  deriving DecidableEq, Repr

/-- The fields of an `appsv1.Deployment` that the driver sets and that vary
with the call; the constant fields of the pod template are left out. -/
structure Deployment where
  name : GoString
  labels : GoMap
  selector : GoMap
  podLabels : GoMap
  replicas : Nat
  nodeName : GoString
  hostPath : GoString
  secretName : GoString
  command : List GoString
  args : List GoString
  preStop : List GoString
  liveness : List GoString
  mountPath : GoString
  deriving DecidableEq, Repr

/-- The CSI source of a persistent volume. -/
structure CSISource where
  volumeHandle : GoString
  volumeAttributes : GoMap
  deriving DecidableEq, Repr

/-- A persistent volume: `Spec.CSI` is a pointer and may be nil. -/
structure PersistentVolume where
  csi : Option CSISource
  deriving DecidableEq, Repr

/-- A call to the orchestrator or to the host, as recorded in the trace. -/
inductive Call
  | mkdirAll (path : GoString)
  | getSecret (name : GoString)
  | deleteSecret (name : GoString)
  | createSecret (name : GoString)
  | getDeployment (name : GoString)
  | deleteDeployment (name : GoString)
  | createDeployment (name : GoString)
  | listVolumes
  | isLikelyNotMountPoint (path : GoString)
  | readDir (path : GoString)
  | unmountHost (path : GoString)
  | unmountPath (path : GoString)
  | createTemp (pattern : GoString)
  | writeFile (name data : GoString)
  | closeFile (name : GoString)
  | exec (command : GoString) (args : List GoString)
  deriving DecidableEq, Repr

/-- The answer of one `IsLikelyNotMountPoint` call. -/
structure Probe where
  notMnt : Bool
  err : Option GoError
  deriving DecidableEq, Repr

/-- How one run of an external process ends: its combined output and the
error of `CombinedOutput` (`none` for exit status zero). -/
structure ProcessResult where
  output : GoString
  err : Option GoString
  deriving DecidableEq, Repr

/-- The cluster namespace of the driver, the host, and the environment's
choices. `faults` scripts the failures of the next calls (one entry per call,
`none` for a call that goes through; an exhausted script injects nothing) and
`probes` scripts the answers of the mount table (an exhausted script answers
"not a mount point"). `now` is the clock in milliseconds. `processes` scripts
the results of the external processes (an exhausted script lets the process
exit with status zero and no output) and `tempNames` the names the host gives
to temporary files. -/
structure World where
  secrets : AList (fun _ : GoString => Secret)
  deployments : AList (fun _ : GoString => Deployment)
  volumes : List PersistentVolume
  nodeID : GoString
  faults : List (Option GoString)
  probes : List Probe
  now : Nat
  trace : List Call
  processes : List ProcessResult := []
  tempNames : List GoString := []

/-- The failure that the script injects into the next call, if any. -/
def World.nextFault (w : World) : Option GoString :=
  match w.faults with
  | [] => none
  | f :: _ => f

/-- Record a call and take the next entry of the failure script. -/
def World.call (w : World) (c : Call) : Option GoString × World :=
  (w.nextFault, { w with faults := w.faults.tail, trace := w.trace ++ [c] })

/-- Whether a call deletes or creates a cluster object. -/
def Call.isWrite : Call → Bool
  | .deleteSecret _ => true
  | .createSecret _ => true
  | .deleteDeployment _ => true
  | .createDeployment _ => true
  | _ => false

/-- The number of objects of a store that carry the name `n`. -/
def countNamed {β : Type} (s : AList (fun _ : GoString => β)) (n : GoString) : Nat :=
  s.keys.countP (fun k => decide (k = n))

/-- The result of `Get` when the call fails: the typed client returns a
pointer to an empty object together with the error. -/
def emptySecret : Secret := ⟨[], [], []⟩

/-- The empty deployment returned along with an error. -/
def emptyDeployment : Deployment := ⟨[], [], [], [], 0, [], [], [], [], [], [], [], []⟩

/-- The message of a not-found answer. -/
def notFoundMsg (kind name : GoString) : GoString :=
  kind ++ lit " \"" ++ name ++ lit "\" not found"

/-- The message of an already-exists answer. -/
def alreadyExistsMsg (kind name : GoString) : GoString :=
  kind ++ lit " \"" ++ name ++ lit "\" already exists"

/-- `os.MkdirAll(path, 0750)`. -/
def mkdirAll (w : World) (path : GoString) : Option GoError × World :=
  ((w.call (.mkdirAll path)).1.map GoError.host, (w.call (.mkdirAll path)).2)

/-- `Secrets(ns).Get(name)`. -/
def getSecret (w : World) (name : GoString) : (Secret × Option GoError) × World :=
  let w1 := (w.call (.getSecret name)).2
  match (w.call (.getSecret name)).1 with
  | some m => ((emptySecret, some (.api m)), w1)
  | none =>
    match w1.secrets.lookup name with
    | some s => ((s, none), w1)
    | none => ((emptySecret, some (.notFound (notFoundMsg (lit "secrets") name))), w1)

/-- `Secrets(ns).Delete(name)`. -/
def deleteSecret (w : World) (name : GoString) : Option GoError × World :=
  let w1 := (w.call (.deleteSecret name)).2
  match (w.call (.deleteSecret name)).1 with
  | some m => (some (.api m), w1)
  | none =>
    match w1.secrets.lookup name with
    | some _ => (none, { w1 with secrets := w1.secrets.erase name })
    | none => (some (.notFound (notFoundMsg (lit "secrets") name)), w1)

/-- `Secrets(ns).Create(secret)`. -/
def createSecret (w : World) (s : Secret) : Option GoError × World :=
  let w1 := (w.call (.createSecret s.name)).2
  match (w.call (.createSecret s.name)).1 with
  | some m => (some (.api m), w1)
  | none =>
    match w1.secrets.lookup s.name with
    | some _ => (some (.alreadyExists (alreadyExistsMsg (lit "secrets") s.name)), w1)
    | none => (none, { w1 with secrets := w1.secrets.insert s.name s })

/-- `Deployments(ns).Get(name)`. -/
def getDeployment (w : World) (name : GoString) : (Deployment × Option GoError) × World :=
  let w1 := (w.call (.getDeployment name)).2
  match (w.call (.getDeployment name)).1 with
  | some m => ((emptyDeployment, some (.api m)), w1)
  | none =>
    match w1.deployments.lookup name with
    | some d => ((d, none), w1)
    | none => ((emptyDeployment, some (.notFound (notFoundMsg (lit "deployments.apps") name))), w1)

/-- `Deployments(ns).Delete(name)`. -/
def deleteDeployment (w : World) (name : GoString) : Option GoError × World :=
  let w1 := (w.call (.deleteDeployment name)).2
  match (w.call (.deleteDeployment name)).1 with
  | some m => (some (.api m), w1)
  | none =>
    match w1.deployments.lookup name with
    | some _ => (none, { w1 with deployments := w1.deployments.erase name })
    | none => (some (.notFound (notFoundMsg (lit "deployments.apps") name)), w1)

/-- `Deployments(ns).Create(deployment)`. -/
def createDeployment (w : World) (d : Deployment) : Option GoError × World :=
  let w1 := (w.call (.createDeployment d.name)).2
  match (w.call (.createDeployment d.name)).1 with
  | some m => (some (.api m), w1)
  | none =>
    match w1.deployments.lookup d.name with
    | some _ => (some (.alreadyExists (alreadyExistsMsg (lit "deployments.apps") d.name)), w1)
    | none => (none, { w1 with deployments := w1.deployments.insert d.name d })

/-- `PersistentVolumes().List()`. -/
def listVolumes (w : World) : Except GoError (List PersistentVolume) × World :=
  let w1 := (w.call .listVolumes).2
  match (w.call .listVolumes).1 with
  | some m => (.error (.api m), w1)
  | none => (.ok w1.volumes, w1)

/-- `mounter.IsLikelyNotMountPoint(path)`: the next answer of the mount table. -/
def isLikelyNotMountPoint (w : World) (path : GoString) : Probe × World :=
  match w.probes with
  | [] => (⟨true, none⟩, { w with trace := w.trace ++ [.isLikelyNotMountPoint path] })
  | p :: ps => (p, { w with probes := ps, trace := w.trace ++ [.isLikelyNotMountPoint path] })

/-- `ioutil.ReadDir(path)`, of which only the error is used. -/
def readDir (w : World) (path : GoString) : Option GoError × World :=
  ((w.call (.readDir path)).1.map GoError.host, (w.call (.readDir path)).2)

/-- `mounter.Unmount(path)`. -/
def unmountHost (w : World) (path : GoString) : Option GoError × World :=
  ((w.call (.unmountHost path)).1.map GoError.host, (w.call (.unmountHost path)).2)

/-! ## Flag composer (rclone.go, `Rclone.Mount`, lines 51 to 93) -/

/-- `fmt.Sprintf("--%s=%s", k, v)` when `v` is not empty, `fmt.Sprintf("--%s", k)` otherwise. -/
def fmtFlag (k v : GoString) : GoString :=
  if v ≠ [] then lit "--" ++ k ++ lit "=" ++ v else lit "--" ++ k

/-- The map `defaultFlags` after the sixteen assignments. -/
def defaultFlags (vol : RcloneVolume) : GoMap :=
  let m : GoMap := []
  let m := mapSet m (lit "rc") (lit "")
  let m := mapSet m (lit "rc-addr") (lit "0.0.0.0:5572")
  let m := mapSet m (lit "rc-enable-metrics") (lit "")
  let m := mapSet m (lit "rc-web-gui") (lit "")
  let m := mapSet m (lit "rc-web-gui-no-open-browser") (lit "")
  let m := mapSet m (lit "rc-no-auth") (lit "")
  let m := mapSet m (lit "volname") vol.ID
  let m := mapSet m (lit "devname") vol.ID
  let m := mapSet m (lit "cache-info-age") (lit "72h")
  let m := mapSet m (lit "cache-chunk-clean-interval") (lit "15m")
  let m := mapSet m (lit "dir-cache-time") (lit "60s")
  let m := mapSet m (lit "vfs-cache-mode") (lit "full")
  let m := mapSet m (lit "vfs-write-back") (lit "10s")
  let m := mapSet m (lit "vfs-cache-max-size") (lit "1g")
  let m := mapSet m (lit "allow-other") (lit "true")
  let m := mapSet m (lit "allow-non-empty") (lit "true")
  m

/-- The argument list `mountArgs` of `Rclone.Mount`. `order` is the sequence in
which the `range` over `defaultFlags` visits its entries (Go does not fix it);
`parameters` is listed in the order its own `range` visits it. -/
def mountArgs (vol : RcloneVolume) (targetPath : GoString) (parameters order : GoMap) :
    List GoString :=
  let args : List GoString := []
  let args := args ++ [lit "mount"]
  let args := args ++ [vol.Remote ++ lit ":/" ++ vol.RemotePath]
  let args := args ++ [targetPath]
  let args := order.foldl
    (fun acc kv => if (mapGet parameters kv.1).isNone then acc ++ [fmtFlag kv.1 kv.2] else acc) args
  parameters.foldl (fun acc kv => acc ++ [fmtFlag kv.1 kv.2]) args

/-! ## Object reconciler (rclone.go) -/

/-- Lines 113 to 139 of `Rclone.Mount`: fetch the Secret, and delete and create
it when its labels are not `labels`. -/
def mountSecret (w : World) (deploymentName : GoString) (labels : GoMap)
    (rcloneConfigData : GoString) : Option GoError × World :=
  match getSecret w deploymentName with
  | ((secret, err), w1) =>
    if fatalApiError err then (err, w1)
    else if !deepEqualMap secret.labels labels then
      match deleteSecret w1 deploymentName with
      | (err, w2) =>
        if fatalApiError err then (err, w2)
        else
          match createSecret w2
              { name := deploymentName, labels := labels,
                stringData := [(lit "rclone.conf", rcloneConfigData)] } with
          | (some err, w3) => (some err, w3)
          | (none, w3) => (none, w3)
    else (none, w1)

/-- The Deployment object that `Rclone.Mount` creates. -/
def mountDeployment (nodeID deploymentName : GoString) (labels : GoMap) (targetPath : GoString)
    (args : List GoString) : Deployment :=
  { name := deploymentName
    labels := labels
    selector := labels
    podLabels := labels
    replicas := 1
    nodeName := nodeID
    hostPath := targetPath
    secretName := deploymentName
    command := [lit "rclone"]
    args := args
    preStop := [lit "sh", lit "-c", lit "umount%!(EXTRA string=" ++ targetPath ++ lit ")"]
    liveness := [lit "sh", lit "-c", lit "ls -lah " ++ targetPath]
    mountPath := targetPath }

/-- Lines 141 to 274 of `Rclone.Mount`: fetch the Deployment, and delete and
create it when its labels are not `labels`. The result of the second `Delete`
(line 152) is discarded. -/
def mountWorkload (w : World) (deploymentName : GoString) (labels : GoMap)
    (targetPath : GoString) (args : List GoString) : Option GoError × World :=
  match getDeployment w deploymentName with
  | ((deployment, err), w1) =>
    if fatalApiError err then (err, w1)
    else if !deepEqualMap deployment.labels labels then
      match deleteDeployment w1 deploymentName with
      | (err, w2) =>
        if fatalApiError err then (err, w2)
        else
          match deleteDeployment w2 deploymentName with
          | (_, w3) =>
            match createDeployment w3
                (mountDeployment w3.nodeID deploymentName labels targetPath args) with
            | (some err, w4) => (some err, w4)
            | (none, w4) => (none, w4)
    else (none, w1)

/-- `Rclone.Mount`. The result is the returned error (`none` for nil) and the
world the call leaves behind. -/
def Mount (w : World) (rcloneVolume : RcloneVolume) (targetPath rcloneConfigData : GoString)
    (parameters order : GoMap) : Option GoError × World :=
  let args := mountArgs rcloneVolume targetPath parameters order
  match mkdirAll w targetPath with
  | (some err, w1) => (some err, w1)
  | (none, w1) =>
    let deploymentName := rcloneVolume.deploymentName
    let labels := pvDeploymentLabels rcloneVolume rcloneConfigData
    match mountSecret w1 deploymentName labels rcloneConfigData with
    | (some err, w2) => (some err, w2)
    | (none, w2) => mountWorkload w2 deploymentName labels targetPath args

/-- `Rclone.Unmount`. -/
def Unmount (w : World) (rcloneVolume : RcloneVolume) : Option GoError × World :=
  let deploymentName := rcloneVolume.deploymentName
  match deleteDeployment w deploymentName with
  | (some err, w1) => (some err, w1)
  | (none, w1) => deleteSecret w1 deploymentName

/-! ## Volume locator (rclone.go) -/

/-- The loop of `Rclone.GetVolumeById` over `pvs.Items`. -/
def scanVolumes (volumeId : GoString) : List PersistentVolume → Except GoError RcloneVolume
  | [] => .error (.plain (lit "volume " ++ volumeId ++ lit " not found"))
  | pv :: rest =>
    match pv.csi with
    | none => scanVolumes volumeId rest
    | some csi =>
      if csi.volumeHandle = volumeId then
        let remote := mapIndex csi.volumeAttributes (lit "remote")
        if remote = [] then .error (.plain (lit "Missing remote volume attribute"))
        else
          let path := mapIndex csi.volumeAttributes (lit "path")
          if path = [] then .error (.plain (lit "Missing path volume attribute"))
          else .ok { Remote := remote, RemotePath := path, ID := volumeId }
      else scanVolumes volumeId rest

/-- `Rclone.GetVolumeById`. -/
def GetVolumeById (w : World) (volumeId : GoString) : Except GoError RcloneVolume × World :=
  match listVolumes w with
  | (.error err, w1) => (.error err, w1)
  | (.ok pvs, w1) => (scanVolumes volumeId pvs, w1)

/-! ## Mount waiter (nodeserver.go) -/

/-- The delay of the first `time.After` of the `select`, in milliseconds. -/
def pollDelay : Nat := 100

/-- The delay of the second `time.After` of the `select`: one minute. -/
def timeoutDelay : Nat := 60000

/-- The error of the timeout case. -/
def waitTimeoutError : GoError := .plain (lit "Wait for Mount available timeout")

/-- `nodeServer.WaitForMountAvailable`, run for at most `fuel` iterations of the
`for` loop. Every iteration evaluates both `time.After` calls anew and blocks
until the timer with the shorter delay fires. The result is `none` while the
loop has not returned, `some none` for a nil error and `some (some e)` for the
error `e`. -/
def WaitForMountAvailable : Nat → World → GoString → Option (Option GoError) × World
  | 0, w, _ => (none, w)
  | fuel + 1, w, mountpoint =>
    if pollDelay < timeoutDelay then
      match isLikelyNotMountPoint { w with now := w.now + pollDelay } mountpoint with
      | (probe, w1) =>
        if !probe.notMnt then (some none, w1)
        else WaitForMountAvailable fuel w1 mountpoint
    else (some (some waitTimeoutError), { w with now := w.now + timeoutDelay })

/-! ## Node publish (nodeserver.go) -/

/-- A `csi.VolumeCapability`; its content is not inspected. -/
structure VolumeCapability where
  accessMode : Nat
  deriving DecidableEq, Repr

/-- The fields of `csi.NodePublishVolumeRequest` that the handler reads. -/
structure NodePublishVolumeRequest where
  volumeId : GoString
  targetPath : GoString
  volumeCapability : Option VolumeCapability
  secrets : GoMap
  volumeContext : GoMap
  deriving DecidableEq, Repr

/-- How a handler ends: with a response, with an error, with a run-time panic,
or still inside `WaitForMountAvailable` when the fuel is used up. -/
inductive Outcome
  | ok
  | error (err : GoError)
  | panic (msg : GoString)
  | waiting
  deriving DecidableEq, Repr

/-- `validatePublishVolumeRequest`. -/
def validatePublishVolumeRequest (req : NodePublishVolumeRequest) : Option GoError :=
  if req.volumeId = [] then some (.status .invalidArgument (lit "empty volume id"))
  else if req.targetPath = [] then some (.status .invalidArgument (lit "empty target path"))
  else if req.volumeCapability = none then
    some (.status .invalidArgument (lit "no volume capability set"))
  else none

/-- The run-time error of a write to a nil map. -/
def nilMapPanic : GoString := lit "assignment to entry in nil map"

/-- Lines 82 to 88 of `NodePublishVolume`: the loop over the volume context
that writes `mountArgs[k[6:]] = v` for every key with the prefix `mount/`.
`mountArgs` is `none` for the nil map; a write to the nil map panics. -/
def collectMountArgs : GoMap → Option GoMap → Except GoString (Option GoMap)
  | [], mountArgs => .ok mountArgs
  | (k, v) :: rest, mountArgs =>
    if hasPrefix k (lit "mount/") then
      match mountArgs with
      | none => .error nilMapPanic
      | some m => collectMountArgs rest (some (mapSet m (k.drop 6) v))
    else collectMountArgs rest mountArgs

/-- Lines 82 to 105 of `NodePublishVolume`: collect the overrides into the
declared, never initialised `mountArgs`, call `Mount`, wait for the mount. -/
def publishMount (fuel : Nat) (w : World) (req : NodePublishVolumeRequest)
    (rcloneConfData remote remotePath : GoString) (order : GoMap) : Outcome × World :=
  match collectMountArgs req.volumeContext none with
  | .error msg => (.panic msg, w)
  | .ok mountArgs =>
    let rcloneVol : RcloneVolume := { ID := req.volumeId, Remote := remote, RemotePath := remotePath }
    match Mount w rcloneVol req.targetPath rcloneConfData (mountArgs.getD []) order with
    | (some err, w1) => (.error (.status .internal err.text), w1)
    | (none, w1) =>
      match WaitForMountAvailable fuel w1 req.targetPath with
      | (none, w2) => (.waiting, w2)
      | (some (some err), w2) => (.error (.status .internal err.text), w2)
      | (some none, w2) => (.ok, w2)

/-- Lines 67 to 80 of `NodePublishVolume`, then the rest of the handler. -/
def publishProbed (fuel : Nat) (w : World) (req : NodePublishVolumeRequest)
    (rcloneConfData remote remotePath : GoString) (order : GoMap) (notMnt : Bool) :
    Outcome × World :=
  if !notMnt then
    match readDir w req.targetPath with
    | (none, w1) => (.ok, w1)
    | (some _, w1) =>
      match unmountHost w1 req.targetPath with
      | (some err, w2) => (.error err, w2)
      | (none, w2) => publishMount fuel w2 req rcloneConfData remote remotePath order
  else publishMount fuel w req rcloneConfData remote remotePath order

/-- `nodeServer.NodePublishVolume` with `RcloneOps` bound to `Rclone`. -/
def NodePublishVolume (fuel : Nat) (w : World) (req : NodePublishVolumeRequest)
    (order : GoMap) : Outcome × World :=
  match validatePublishVolumeRequest req with
  | some err => (.error err, w)
  | none =>
    match mapGet req.secrets (lit "rclone.conf") with
    | none => (.error (.status .invalidArgument (lit "NodePublishVolume:missing rclone.conf key, did you set csi.storage.k8s.io/node-publish-secret-name?")), w)
    | some rcloneConfData =>
      match mapGet req.volumeContext (lit "remote") with
      | none => (.error (.status .invalidArgument
          (lit "NodePublishVolume: remote key not found in parameters")), w)
      | some remote =>
        match mapGet req.volumeContext (lit "path") with
        | none => (.error (.status .invalidArgument
            (lit "NodePublishVolume: path key not found in parameters")), w)
        | some remotePath =>
          match isLikelyNotMountPoint w req.targetPath with
          | (probe, w1) =>
            match probe.err with
            | some (.notExist _) =>
              match mkdirAll w1 req.targetPath with
              | (some err, w2) => (.error (.status .internal err.text), w2)
              | (none, w2) =>
                publishProbed fuel w2 req rcloneConfData remote remotePath order true
            | some err => (.error (.status .internal err.text), w1)
            | none =>
              publishProbed fuel w1 req rcloneConfData remote remotePath order probe.notMnt

/-! ## `strconv.Quote` (standard library) -/

/-- `strconv.IsPrint`. Up to U+00FF it is the range test of the library; above,
the library consults its tables and the code point is taken as printable here
(no theorem below depends on a code point above U+00FF). -/
def strconvIsPrint (r : Nat) : Bool :=
  if r ≤ 0xFF then (0x20 ≤ r && r < 0x7F) || (0xA1 ≤ r && r ≠ 0xAD)
  else true

/-- `appendEscapedRune` of `strconv` for the double quote, without the
ASCII-only and graphic-only modes. -/
def appendEscapedRune (r : Nat) : GoString :=
  if r = 0x22 || r = 0x5C then [0x5C, r]
  else if strconvIsPrint r then encodeRune r
  else if r = 0x07 then [0x5C, 0x61]
  else if r = 0x08 then [0x5C, 0x62]
  else if r = 0x0C then [0x5C, 0x66]
  else if r = 0x0A then [0x5C, 0x6E]
  else if r = 0x0D then [0x5C, 0x72]
  else if r = 0x09 then [0x5C, 0x74]
  else if r = 0x0B then [0x5C, 0x76]
  else if r < 0x20 || r = 0x7F then [0x5C, 0x78, hexDigit (r / 16), hexDigit (r % 16)]
  else
    let r := if (0xD800 ≤ r && r ≤ 0xDFFF) || 0x10FFFF < r then runeError else r
    if r < 0x10000 then
      [0x5C, 0x75, hexDigit (r / 0x1000 % 16), hexDigit (r / 0x100 % 16),
        hexDigit (r / 0x10 % 16), hexDigit (r % 16)]
    else
      [0x5C, 0x55, hexDigit (r / 0x10000000 % 16), hexDigit (r / 0x1000000 % 16),
        hexDigit (r / 0x100000 % 16), hexDigit (r / 0x10000 % 16),
        hexDigit (r / 0x1000 % 16), hexDigit (r / 0x100 % 16),
        hexDigit (r / 0x10 % 16), hexDigit (r % 16)]

/-- The loop of `strconv.Quote` over the runes of the string; a byte that is
not part of a well-formed sequence is written as a two-digit hexadecimal
escape. -/
def quoteBody : Nat → GoString → GoString
  | 0, _ => []
  | _, [] => []
  | fuel + 1, b :: rest =>
    let d := if b < 0x80 then (b, 1) else decodeRune (b :: rest)
    if d.2 = 1 && d.1 = runeError then
      [0x5C, 0x78, hexDigit (b / 16), hexDigit (b % 16)] ++ quoteBody fuel rest
    else appendEscapedRune d.1 ++ quoteBody fuel ((b :: rest).drop d.2)

/-- `strconv.Quote`, the verb `%q` of `fmt` on a string. -/
def strconvQuote (s : GoString) : GoString :=
  [0x22] ++ quoteBody s.length s ++ [0x22]

/-! ## Command runner (rclone.go) -/

/-- Whether a call runs an external process. -/
def Call.isExec : Call → Bool
  | .exec _ _ => true
  | _ => false

/-- The result that the script gives to the next external process. -/
def World.nextProcess (w : World) : ProcessResult :=
  match w.processes with
  | [] => ⟨[], none⟩
  | p :: _ => p

/-- The name that the host gives to the next temporary file. -/
def World.nextTempName (w : World) (pattern : GoString) : GoString :=
  match w.tempNames with
  | [] => lit "/tmp/" ++ pattern
  | n :: _ => n

/-- `r.execute.Command(cmd, args...).CombinedOutput()`: the next result of the
process script. -/
def combinedOutput (w : World) (cmd : GoString) (args : List GoString) : ProcessResult × World :=
  (w.nextProcess, { w with processes := w.processes.tail, trace := w.trace ++ [.exec cmd args] })

/-- `Rclone.command`. The flags are listed in the order their `range` visits them. -/
def command (w : World) (cmd remote remotePath : GoString) (flags : GoMap) :
    Option GoError × World :=
  let args : List GoString := [] ++ [cmd, remote ++ lit ":" ++ remotePath]
  let args := flags.foldl (fun acc kv => acc ++ [lit "--" ++ kv.1 ++ lit "=" ++ kv.2]) args
  match combinedOutput w (lit "rclone") args with
  | (p, w1) =>
    match p.err with
    | some err =>
      (some (.plain (cmd ++ lit " failed: " ++ err ++ lit " cmd: " ++ [0x27] ++ lit "rclone"
        ++ [0x27] ++ lit " remote: " ++ [0x27] ++ lit ":" ++ remote ++ lit ":" ++ remotePath
        ++ [0x27] ++ lit " output: " ++ strconvQuote p.output)), w1)
    | none => (none, w1)

/-- `Rclone.CreateVol`. -/
def CreateVol (w : World) (volumeName remote remotePath rcloneConfigPath : GoString) :
    Option GoError × World :=
  let path := remotePath ++ lit "/" ++ volumeName
  command w (lit "mkdir") remote path [(lit "config", rcloneConfigPath)]

/-- `Rclone.DeleteVol`. -/
def DeleteVol (w : World) (rcloneVolume : RcloneVolume) (rcloneConfigPath : GoString) :
    Option GoError × World :=
  command w (lit "rmdirs") rcloneVolume.Remote rcloneVolume.RemotePath
    [(lit "config", rcloneConfigPath)]

/-! ## Controller (controllerserver.go) -/

/-- `os.CreateTemp("", pattern)`: the name of the new file. -/
def createTemp (w : World) (pattern : GoString) : Except GoError GoString × World :=
  let w1 := (w.call (.createTemp pattern)).2
  match (w.call (.createTemp pattern)).1 with
  | some m => (.error (.host m), w1)
  | none => (.ok (w1.nextTempName pattern), { w1 with tempNames := w1.tempNames.tail })

/-- `file.Write(data)`, of which only the error is used. -/
def writeFile (w : World) (name data : GoString) : Option GoError × World :=
  ((w.call (.writeFile name data)).1.map GoError.host, (w.call (.writeFile name data)).2)

/-- `file.Close()`. -/
def closeFile (w : World) (name : GoString) : Option GoError × World :=
  ((w.call (.closeFile name)).1.map GoError.host, (w.call (.closeFile name)).2)

/-- `extractRcloneConf`: the path of a temporary file that holds the config. -/
def extractRcloneConf (w : World) (secrets : GoMap) : Except GoError GoString × World :=
  match mapGet secrets (lit "rclone.conf") with
  | none => (.error (.plain (lit "rclone.conf key in secret not found")), w)
  | some rcloneConfData =>
    match createTemp w (lit "rclone.conf") with
    | (.error err, w1) => (.error err, w1)
    | (.ok name, w1) =>
      match writeFile w1 name rcloneConfData with
      | (some err, w2) => (.error err, w2)
      | (none, w2) =>
        match closeFile w2 name with
        | (some err, w3) => (.error err, w3)
        | (none, w3) => (.ok name, w3)

/-- The fields of `csi.CreateVolumeRequest` that the handler reads. -/
structure CreateVolumeRequest where
  name : GoString
  volumeCapabilities : List VolumeCapability
  parameters : GoMap
  secrets : GoMap
  requiredBytes : Nat
  deriving DecidableEq, Repr

/-- The `csi.Volume` of a `csi.CreateVolumeResponse`. -/
structure CreateVolumeResponse where
  capacityBytes : Nat
  volumeId : GoString
  volumeContext : GoMap
  deriving DecidableEq, Repr

/-- `controllerServer.CreateVolume` with `RcloneOps` bound to `Rclone`;
`newUUID` is the value of `uuid.New().String()`. -/
def CreateVolume (w : World) (req : CreateVolumeRequest) (newUUID : GoString) :
    Except GoError CreateVolumeResponse × World :=
  let volumeName := req.name
  if volumeName.length = 0 then
    (.error (.status .invalidArgument (lit "CreateVolume name must be provided")), w)
  else if req.volumeCapabilities.length = 0 then
    (.error (.status .invalidArgument (lit "CreateVolume without capabilities")), w)
  else
    match extractRcloneConf w req.secrets with
    | (.error err, w1) => (.error (.status .invalidArgument (lit "CreateVolume: " ++ err.text)), w1)
    | (.ok rcloneConfPath, w1) =>
      match mapGet req.parameters (lit "remote") with
      | none =>
        (.error (.status .invalidArgument (lit "remote key not found in parameters")), w1)
      | some remote =>
        match mapGet req.parameters (lit "path") with
        | none =>
          (.error (.status .invalidArgument (lit "path key not found in parameters")), w1)
        | some remotePath =>
          match CreateVol w1 volumeName remote remotePath rcloneConfPath with
          | (some err, w2) => (.error err, w2)
          | (none, w2) =>
            (.ok { capacityBytes := req.requiredBytes
                   volumeId := newUUID
                   volumeContext := [(lit "remote", remote),
                     (lit "path", remotePath ++ lit "/" ++ volumeName)] }, w2)

/-! ## Node unpublish (nodeserver.go) -/

/-- The fields of `csi.NodeUnpublishVolumeRequest`. -/
structure NodeUnpublishVolumeRequest where
  volumeId : GoString
  targetPath : GoString
  deriving DecidableEq, Repr

/-- `validateUnPublishVolumeRequest`. -/
def validateUnPublishVolumeRequest (req : NodeUnpublishVolumeRequest) : Option GoError :=
  if req.volumeId = [] then some (.status .invalidArgument (lit "empty volume id"))
  else if req.targetPath = [] then some (.status .invalidArgument (lit "empty target path"))
  else none

/-- `util.UnmountPath(path, mounter)`. -/
def unmountPath (w : World) (path : GoString) : Option GoError × World :=
  ((w.call (.unmountPath path)).1.map GoError.host, (w.call (.unmountPath path)).2)

/-- `nodeServer.NodeUnpublishVolume` with `RcloneOps` bound to `Rclone`. The
results of `Unmount` and of `util.UnmountPath` are not assigned. -/
def NodeUnpublishVolume (w : World) (req : NodeUnpublishVolumeRequest) : Outcome × World :=
  match validateUnPublishVolumeRequest req with
  | some err => (.error err, w)
  | none =>
    if req.targetPath.length = 0 then
      (.error (.status .invalidArgument
        (lit "NodeUnpublishVolume Target Path must be provided")), w)
    else
      match GetVolumeById w req.volumeId with
      | (.error err, w1) => (.error (.status .internal err.text), w1)
      | (.ok rcloneVol, w1) =>
        match Unmount w1 rcloneVol with
        | (_, w2) =>
          match unmountPath w2 req.targetPath with
          | (_, w3) => (.ok, w3)

/-! ## Sample data -/

/-- A cluster without objects, a failure script without entries, a mount table
that never shows a mount. -/
def emptyWorld : World :=
  { secrets := ∅, deployments := ∅, volumes := [], nodeID := lit "node-1",
    faults := [], probes := [], now := 0, trace := [] }

/-- A volume with a short handle. -/
def sampleVolume : RcloneVolume :=
  { Remote := lit "s3", RemotePath := lit "bucket/data", ID := lit "vol-1" }

/-- A first `Mount` of the sample volume on the empty cluster. -/
def sampleMount : Option GoError × World :=
  Mount emptyWorld sampleVolume (lit "/var/lib/kubelet/t1") (lit "[s3]") []
    (defaultFlags sampleVolume)

/-- A cluster that holds the Secret of the sample volume and no Deployment. -/
def secretOnlyWorld : World :=
  { emptyWorld with
    secrets := AList.singleton sampleVolume.deploymentName
      { name := sampleVolume.deploymentName
        labels := pvDeploymentLabels sampleVolume (lit "[s3]")
        stringData := [(lit "rclone.conf", lit "[s3]")] } }

/-- A cluster that holds the Deployment of the sample volume and no Secret. -/
def deploymentOnlyWorld : World :=
  { emptyWorld with
    deployments := AList.singleton sampleVolume.deploymentName
      (mountDeployment (lit "node-1") sampleVolume.deploymentName
        (pvDeploymentLabels sampleVolume (lit "[s3]")) (lit "/var/lib/kubelet/t1") []) }

/-- A publish request whose volume context carries one `mount/` entry. -/
def sampleRequest : NodePublishVolumeRequest :=
  { volumeId := lit "vol-1"
    targetPath := lit "/var/lib/kubelet/t1"
    volumeCapability := some ⟨1⟩
    secrets := [(lit "rclone.conf", lit "[s3]")]
    volumeContext := [(lit "remote", lit "s3"), (lit "path", lit "bucket/data"),
      (lit "mount/vfs-cache-mode", lit "off")] }

/-- Two persistent volumes with the handle `vol-1`: the first without
attributes, the second with `remote` and `path`. -/
def twoVolumes : List PersistentVolume :=
  [⟨some ⟨lit "vol-1", []⟩⟩,
   ⟨some ⟨lit "vol-1", [(lit "remote", lit "s3"), (lit "path", lit "bucket/data")]⟩⟩]

/-- The CSI source the specification names: of the first volume whose handle
is `volumeId` and whose `remote` and `path` attributes are both non-empty. -/
def firstCompleteMatch (volumeId : GoString) (pvs : List PersistentVolume) : Option CSISource :=
  (pvs.filterMap (fun pv => pv.csi)).find? (fun c =>
    decide (c.volumeHandle = volumeId)
      && decide (mapIndex c.volumeAttributes (lit "remote") ≠ [])
      && decide (mapIndex c.volumeAttributes (lit "path") ≠ []))

/-- The CSI source of the first volume whose handle is `volumeId`. -/
def firstHandleMatch (volumeId : GoString) (pvs : List PersistentVolume) : Option CSISource :=
  (pvs.filterMap (fun pv => pv.csi)).find? (fun c => decide (c.volumeHandle = volumeId))

/-- A handle of 47 ASCII letters followed by the two bytes of U+00E9: the
prefixed name has 64 bytes and the cut at 63 splits the last character. -/
def splitHandle : GoString := List.replicate 47 0x61 ++ [0xC3, 0xA9]

/-- A handle of 24 times U+023A (two bytes each): the prefixed name has 63 bytes. -/
def growingHandle : GoString := (List.replicate 24 [0xC8, 0xBA]).flatten

/-- A create request with a name, a capability, both parameters and the config. -/
def sampleCreateRequest : CreateVolumeRequest :=
  { name := lit "pvc-1"
    volumeCapabilities := [⟨1⟩]
    parameters := [(lit "remote", lit "s3"), (lit "path", lit "bucket/data")]
    secrets := [(lit "rclone.conf", lit "[s3]")]
    requiredBytes := 0 }

/-- The same request with the parameter `remote` present and empty. -/
def emptyRemoteRequest : CreateVolumeRequest :=
  { sampleCreateRequest with
    parameters := [(lit "remote", lit ""), (lit "path", lit "bucket/data")] }

/-- A host on which the next process prints `a`, a line feed and `b`, and exits
with status 1. -/
def failingProcessWorld : World :=
  { emptyWorld with processes := [⟨[0x61, 0x0A, 0x62], some (lit "exit status 1")⟩] }

/-- A cluster that lists the persistent volume of `vol-1` and then fails the
next call, the deletion of the Deployment. -/
def brokenApiWorld : World :=
  { emptyWorld with
    volumes := [⟨some ⟨lit "vol-1",
      [(lit "remote", lit "s3"), (lit "path", lit "bucket/data")]⟩⟩]
    faults := [none, some (lit "etcdserver: request timed out")] }

/-- An unpublish request for `vol-1`. -/
def sampleUnpublish : NodeUnpublishVolumeRequest :=
  { volumeId := lit "vol-1", targetPath := lit "/var/lib/kubelet/t1" }

/-! ## The world under one call -/

@[simp] theorem call_fst (w : World) (c : Call) : (w.call c).1 = w.nextFault := rfl

@[simp] theorem call_secrets (w : World) (c : Call) : (w.call c).2.secrets = w.secrets := rfl

@[simp] theorem call_deployments (w : World) (c : Call) :
    (w.call c).2.deployments = w.deployments := rfl

@[simp] theorem call_nodeID (w : World) (c : Call) : (w.call c).2.nodeID = w.nodeID := rfl

@[simp] theorem call_volumes (w : World) (c : Call) : (w.call c).2.volumes = w.volumes := rfl

@[simp] theorem call_probes (w : World) (c : Call) : (w.call c).2.probes = w.probes := rfl

@[simp] theorem call_now (w : World) (c : Call) : (w.call c).2.now = w.now := rfl

@[simp] theorem call_trace (w : World) (c : Call) : (w.call c).2.trace = w.trace ++ [c] := rfl

@[simp] theorem call_faults (w : World) (c : Call) : (w.call c).2.faults = w.faults.tail := rfl

/-! ## The label map -/

theorem labels_self (vol : RcloneVolume) (cfg : GoString) :
    deepEqualMap (pvDeploymentLabels vol cfg) (pvDeploymentLabels vol cfg) = true := by
  simp [deepEqualMap, pvDeploymentLabels, mapGet, lit]

theorem labels_empty (vol : RcloneVolume) (cfg : GoString) :
    deepEqualMap [] (pvDeploymentLabels vol cfg) = false := by
  simp [deepEqualMap, pvDeploymentLabels]

/-- A label map that passes the test against the pair of `cfg` holds the hash of `cfg`. -/
theorem labels_hash (a : GoMap) (vol : RcloneVolume) (cfg : GoString)
    (h : deepEqualMap a (pvDeploymentLabels vol cfg) = true) :
    mapGet a (lit "hash") = some (secretHash cfg) ∧ mapGet a (lit "volumeid") = some vol.ID
      ∧ a.length = 2 := by
  simp [deepEqualMap, pvDeploymentLabels] at h
  exact ⟨h.2.2, h.2.1, h.1.1⟩

theorem labels_drift (a : GoMap) (vol : RcloneVolume) (c1 c2 : GoString)
    (hne : secretHash c1 ≠ secretHash c2)
    (h : deepEqualMap a (pvDeploymentLabels vol c1) = true) :
    deepEqualMap a (pvDeploymentLabels vol c2) = false := by
  by_contra hc
  have h2 : deepEqualMap a (pvDeploymentLabels vol c2) = true := by simpa using hc
  have e1 := (labels_hash a vol c1 h).1
  have e2 := (labels_hash a vol c2 h2).1
  rw [e1] at e2
  exact hne (Option.some.inj e2)

/-! ## The Secret calls -/

theorem getSecret_world (w : World) (n : GoString) :
    (getSecret w n).2 = (w.call (.getSecret n)).2 := by
  unfold getSecret
  cases h0 : w.nextFault <;> simp [h0]
  cases h1 : w.secrets.lookup n <;> simp [h1]

theorem getSecret_value (w : World) (n : GoString) (h : fatalApiError (getSecret w n).1.2 = false) :
    w.nextFault = none ∧
      (getSecret w n).1.1 = (w.secrets.lookup n).getD emptySecret := by
  unfold getSecret at *
  cases h0 : w.nextFault <;> simp [h0, fatalApiError] at h ⊢
  cases h1 : w.secrets.lookup n <;> simp [h1]

theorem deleteSecret_frame (w : World) (n : GoString) :
    (deleteSecret w n).2.deployments = w.deployments
      ∧ (deleteSecret w n).2.nodeID = w.nodeID
      ∧ (deleteSecret w n).2.trace = w.trace ++ [.deleteSecret n]
      ∧ (deleteSecret w n).2.faults = w.faults.tail := by
  unfold deleteSecret
  cases h0 : w.nextFault <;> simp [h0]
  cases h1 : w.secrets.lookup n <;> simp [h1]

theorem deleteSecret_gone (w : World) (n : GoString)
    (h : fatalApiError (deleteSecret w n).1 = false) :
    w.nextFault = none ∧ (deleteSecret w n).2.secrets.lookup n = none := by
  unfold deleteSecret at *
  cases h0 : w.nextFault <;> simp [h0, fatalApiError] at h ⊢
  cases h1 : w.secrets.lookup n <;> simp [h1]

theorem createSecret_frame (w : World) (s : Secret) :
    (createSecret w s).2.deployments = w.deployments
      ∧ (createSecret w s).2.nodeID = w.nodeID
      ∧ (createSecret w s).2.trace = w.trace ++ [.createSecret s.name]
      ∧ (createSecret w s).2.faults = w.faults.tail := by
  unfold createSecret
  cases h0 : w.nextFault <;> simp [h0]
  cases h1 : w.secrets.lookup s.name <;> simp [h1]

theorem createSecret_there (w : World) (s : Secret) (h : (createSecret w s).1 = none) :
    w.nextFault = none ∧ (createSecret w s).2.secrets.lookup s.name = some s := by
  unfold createSecret at *
  cases h0 : w.nextFault <;> simp [h0] at h ⊢
  cases h1 : w.secrets.lookup s.name <;> simp [h1] at h ⊢

/-! ## The Secret step of `Mount` -/

theorem mountSecret_settled (w : World) (n : GoString) (l : GoMap) (c : GoString) (s : Secret)
    (hs : w.secrets.lookup n = some s) (hl : deepEqualMap s.labels l = true) :
    mountSecret w n l c
      = (w.nextFault.map GoError.api, (w.call (.getSecret n)).2) := by
  unfold mountSecret getSecret
  cases h0 : w.nextFault <;> simp [h0, hs, hl, fatalApiError]

theorem mountSecret_spec (w : World) (n : GoString) (l : GoMap) (c : GoString)
    (hl : deepEqualMap [] l = false) (h : (mountSecret w n l c).1 = none) :
    (mountSecret w n l c).2.deployments = w.deployments
      ∧ (mountSecret w n l c).2.nodeID = w.nodeID
      ∧ ((∃ s, w.secrets.lookup n = some s ∧ deepEqualMap s.labels l = true
            ∧ (mountSecret w n l c).2.secrets = w.secrets
            ∧ (mountSecret w n l c).2.trace = w.trace ++ [.getSecret n])
        ∨ ((∀ s, w.secrets.lookup n = some s → deepEqualMap s.labels l = false)
            ∧ (mountSecret w n l c).2.secrets.lookup n
                = some { name := n, labels := l, stringData := [(lit "rclone.conf", c)] }
            ∧ (mountSecret w n l c).2.trace
                = w.trace ++ [.getSecret n, .deleteSecret n, .createSecret n])) := by
  unfold mountSecret at *
  have hw := getSecret_world w n
  have hv := getSecret_value w n
  rcases hg : getSecret w n with ⟨⟨secret, err⟩, w1⟩
  rw [hg] at hw hv
  simp only [hg] at h ⊢
  simp only at hw hv
  subst hw
  by_cases hf : fatalApiError err = true
  · simp only [hf, if_true] at h
    subst h
    simp [fatalApiError] at hf
  · have hf' : fatalApiError err = false := by simpa using hf
    obtain ⟨-, hsec⟩ := hv hf'
    simp only [hf', Bool.false_eq_true, if_false] at h ⊢
    by_cases hd : deepEqualMap secret.labels l = true
    · simp only [hd, Bool.not_true, Bool.false_eq_true, if_false] at h ⊢
      refine ⟨by simp, by simp, Or.inl ?_⟩
      cases hlk : w.secrets.lookup n with
      | none => simp [hlk, emptySecret] at hsec; rw [hsec] at hd; simp [hl] at hd
      | some s =>
        simp [hlk] at hsec
        exact ⟨s, rfl, hsec ▸ hd, by simp, by simp⟩
    · have hd' : deepEqualMap secret.labels l = false := by simpa using hd
      simp only [hd', Bool.not_false, if_true] at h ⊢
      have hfr := deleteSecret_frame (w.call (.getSecret n)).2 n
      have hgo := deleteSecret_gone (w.call (.getSecret n)).2 n
      rcases hdel : deleteSecret (w.call (.getSecret n)).2 n with ⟨err2, w2⟩
      rw [hdel] at hfr hgo
      simp only [hdel] at h ⊢
      simp only at hfr hgo
      by_cases hf2 : fatalApiError err2 = true
      · simp only [hf2, if_true] at h
        subst h
        simp [fatalApiError] at hf2
      · have hf2' : fatalApiError err2 = false := by simpa using hf2
        simp only [hf2', Bool.false_eq_true, if_false] at h ⊢
        have hcf := createSecret_frame w2
          { name := n, labels := l, stringData := [(lit "rclone.conf", c)] }
        have hct := createSecret_there w2
          { name := n, labels := l, stringData := [(lit "rclone.conf", c)] }
        rcases hcr : createSecret w2
          { name := n, labels := l, stringData := [(lit "rclone.conf", c)] } with ⟨err3, w3⟩
        rw [hcr] at hcf hct
        simp only [hcr] at h ⊢
        cases err3 with
        | some e => simp at h
        | none =>
          simp only at hcf hct h ⊢
          obtain ⟨-, hthere⟩ := hct trivial
          refine ⟨by rw [hcf.1, hfr.1]; simp, by rw [hcf.2.1, hfr.2.1]; simp, Or.inr ⟨?_, hthere, ?_⟩⟩
          · intro s hs
            rw [hs] at hsec
            simp at hsec
            rw [← hsec]; exact hd'
          · rw [hcf.2.2.1, hfr.2.2.1]; simp

/-! ## The Deployment calls -/

theorem getDeployment_world (w : World) (n : GoString) :
    (getDeployment w n).2 = (w.call (.getDeployment n)).2 := by
  unfold getDeployment
  cases h0 : w.nextFault <;> simp [h0]
  cases h1 : w.deployments.lookup n <;> simp [h1]

theorem getDeployment_value (w : World) (n : GoString)
    (h : fatalApiError (getDeployment w n).1.2 = false) :
    w.nextFault = none ∧
      (getDeployment w n).1.1 = (w.deployments.lookup n).getD emptyDeployment := by
  unfold getDeployment at *
  cases h0 : w.nextFault <;> simp [h0, fatalApiError] at h ⊢
  cases h1 : w.deployments.lookup n <;> simp [h1]

theorem deleteDeployment_frame (w : World) (n : GoString) :
    (deleteDeployment w n).2.secrets = w.secrets
      ∧ (deleteDeployment w n).2.nodeID = w.nodeID
      ∧ (deleteDeployment w n).2.trace = w.trace ++ [.deleteDeployment n]
      ∧ (deleteDeployment w n).2.faults = w.faults.tail := by
  unfold deleteDeployment
  cases h0 : w.nextFault <;> simp [h0]
  cases h1 : w.deployments.lookup n <;> simp [h1]

theorem deleteDeployment_gone (w : World) (n : GoString)
    (h : fatalApiError (deleteDeployment w n).1 = false) :
    w.nextFault = none ∧ (deleteDeployment w n).2.deployments.lookup n = none := by
  unfold deleteDeployment at *
  cases h0 : w.nextFault <;> simp [h0, fatalApiError] at h ⊢
  cases h1 : w.deployments.lookup n <;> simp [h1]

theorem deleteDeployment_absent (w : World) (n : GoString)
    (h : w.deployments.lookup n = none) :
    (deleteDeployment w n).2.deployments.lookup n = none := by
  unfold deleteDeployment
  cases h0 : w.nextFault <;> simp [h0, h]

theorem createDeployment_frame (w : World) (d : Deployment) :
    (createDeployment w d).2.secrets = w.secrets
      ∧ (createDeployment w d).2.nodeID = w.nodeID
      ∧ (createDeployment w d).2.trace = w.trace ++ [.createDeployment d.name]
      ∧ (createDeployment w d).2.faults = w.faults.tail := by
  unfold createDeployment
  cases h0 : w.nextFault <;> simp [h0]
  cases h1 : w.deployments.lookup d.name <;> simp [h1]

theorem createDeployment_there (w : World) (d : Deployment)
    (h : (createDeployment w d).1 = none) :
    w.nextFault = none ∧ (createDeployment w d).2.deployments.lookup d.name = some d := by
  unfold createDeployment at *
  cases h0 : w.nextFault <;> simp [h0] at h ⊢
  cases h1 : w.deployments.lookup d.name <;> simp [h1] at h ⊢

/-! ## The Deployment step of `Mount` -/

theorem mountWorkload_settled (w : World) (n : GoString) (l : GoMap) (t : GoString)
    (args : List GoString) (d : Deployment)
    (hs : w.deployments.lookup n = some d) (hl : deepEqualMap d.labels l = true) :
    mountWorkload w n l t args
      = (w.nextFault.map GoError.api, (w.call (.getDeployment n)).2) := by
  unfold mountWorkload getDeployment
  cases h0 : w.nextFault <;> simp [h0, hs, hl, fatalApiError]

theorem mountWorkload_spec (w : World) (n : GoString) (l : GoMap) (t : GoString)
    (args : List GoString)
    (hl : deepEqualMap [] l = false) (h : (mountWorkload w n l t args).1 = none) :
    (mountWorkload w n l t args).2.secrets = w.secrets
      ∧ (mountWorkload w n l t args).2.nodeID = w.nodeID
      ∧ ((∃ d, w.deployments.lookup n = some d ∧ deepEqualMap d.labels l = true
            ∧ (mountWorkload w n l t args).2.deployments = w.deployments
            ∧ (mountWorkload w n l t args).2.trace = w.trace ++ [.getDeployment n])
        ∨ ((∀ d, w.deployments.lookup n = some d → deepEqualMap d.labels l = false)
            ∧ (mountWorkload w n l t args).2.deployments.lookup n
                = some (mountDeployment w.nodeID n l t args)
            ∧ (mountWorkload w n l t args).2.trace
                = w.trace ++ [.getDeployment n, .deleteDeployment n, .deleteDeployment n,
                    .createDeployment n])) := by
  unfold mountWorkload at *
  have hw := getDeployment_world w n
  have hv := getDeployment_value w n
  rcases hg : getDeployment w n with ⟨⟨dep, err⟩, w1⟩
  rw [hg] at hw hv
  simp only [hg] at h ⊢
  simp only at hw hv
  subst hw
  by_cases hf : fatalApiError err = true
  · simp only [hf, if_true] at h
    subst h
    simp [fatalApiError] at hf
  · have hf' : fatalApiError err = false := by simpa using hf
    obtain ⟨-, hdep⟩ := hv hf'
    simp only [hf', Bool.false_eq_true, if_false] at h ⊢
    by_cases hd : deepEqualMap dep.labels l = true
    · simp only [hd, Bool.not_true, Bool.false_eq_true, if_false] at h ⊢
      refine ⟨by simp, by simp, Or.inl ?_⟩
      cases hlk : w.deployments.lookup n with
      | none => simp [hlk, emptyDeployment] at hdep; rw [hdep] at hd; simp [hl] at hd
      | some s =>
        simp [hlk] at hdep
        exact ⟨s, rfl, hdep ▸ hd, by simp, by simp⟩
    · have hd' : deepEqualMap dep.labels l = false := by simpa using hd
      simp only [hd', Bool.not_false, if_true] at h ⊢
      have hfr := deleteDeployment_frame (w.call (.getDeployment n)).2 n
      have hgo := deleteDeployment_gone (w.call (.getDeployment n)).2 n
      rcases hdel : deleteDeployment (w.call (.getDeployment n)).2 n with ⟨err2, w2⟩
      rw [hdel] at hfr hgo
      simp only [hdel] at h ⊢
      simp only at hfr hgo
      by_cases hf2 : fatalApiError err2 = true
      · simp only [hf2, if_true] at h
        subst h
        simp [fatalApiError] at hf2
      · have hf2' : fatalApiError err2 = false := by simpa using hf2
        simp only [hf2', Bool.false_eq_true, if_false] at h ⊢
        obtain ⟨-, hgone⟩ := hgo hf2'
        have hfr3 := deleteDeployment_frame w2 n
        have hab3 := deleteDeployment_absent w2 n hgone
        rcases hdel3 : deleteDeployment w2 n with ⟨err3, w3⟩
        rw [hdel3] at hfr3 hab3
        simp only [hdel3] at h ⊢
        simp only at hfr3 hab3
        have hnode : w3.nodeID = w.nodeID := by rw [hfr3.2.1, hfr.2.1]; simp
        rw [hnode] at h ⊢
        have hcf := createDeployment_frame w3 (mountDeployment w.nodeID n l t args)
        have hct := createDeployment_there w3 (mountDeployment w.nodeID n l t args)
        rcases hcr : createDeployment w3 (mountDeployment w.nodeID n l t args) with ⟨err4, w4⟩
        rw [hcr] at hcf hct
        simp only [hcr] at h ⊢
        cases err4 with
        | some e => simp at h
        | none =>
          simp only at hcf hct h ⊢
          obtain ⟨-, hthere⟩ := hct trivial
          refine ⟨by rw [hcf.1, hfr3.1, hfr.1]; simp, by rw [hcf.2.1, hnode],
            Or.inr ⟨?_, hthere, ?_⟩⟩
          · intro s hs
            rw [hs] at hdep
            simp at hdep
            rw [← hdep]; exact hd'
          · rw [hcf.2.2.1, hfr3.2.2.1, hfr.2.2.1]; simp [mountDeployment]

/-! ## `Mount` as a whole -/

theorem sha256_length (m : GoString) : (sha256 m).length = 32 := by
  simp [sha256, shaBytes, be32]

theorem hexEncode_length (bs : GoString) : (hexEncode bs).length = 2 * bs.length := by
  induction bs with
  | nil => rfl
  | cons b rest ih =>
    have : hexEncode (b :: rest) = [hexDigit (b / 16), hexDigit (b % 16)] ++ hexEncode rest := by
      simp [hexEncode]
    rw [this, List.length_append, ih]
    simp
    omega

theorem secretHash_length (c : GoString) : (secretHash c).length = 63 := by
  simp [secretHash, hexEncode_length, sha256_length]

theorem countP_eq_one_of_nodup (l : List GoString) (n : GoString) (hnd : l.Nodup) (hm : n ∈ l) :
    l.countP (fun k => decide (k = n)) = 1 := by
  induction l with
  | nil => simp at hm
  | cons a rest ih =>
    rw [List.nodup_cons] at hnd
    by_cases ha : a = n
    · subst ha
      have hz : rest.countP (fun k => decide (k = a)) = 0 := by
        rw [List.countP_eq_zero]
        intro k hk
        simp only [decide_eq_true_eq]
        rintro rfl
        exact hnd.1 hk
      simp [List.countP_cons, hz]
    · have hm' : n ∈ rest := by
        rcases List.mem_cons.mp hm with h | h
        · exact absurd h.symm ha
        · exact h
      simp [List.countP_cons, ha, ih hnd.2 hm']

theorem countNamed_of_lookup {β : Type} (s : AList (fun _ : GoString => β)) (n : GoString)
    (b : β) (h : s.lookup n = some b) : countNamed s n = 1 := by
  have hm : n ∈ s.keys := by
    have : (s.lookup n).isSome := by simp [h]
    exact AList.mem_keys.mp (AList.lookup_isSome.mp this)
  exact countP_eq_one_of_nodup s.keys n s.keys_nodup hm

/-- What a successful `Mount` leaves behind and which calls it issued. -/
theorem Mount_spec (w : World) (vol : RcloneVolume) (t c : GoString) (p o : GoMap)
    (h : (Mount w vol t c p o).1 = none) :
    (Mount w vol t c p o).2.nodeID = w.nodeID ∧
    ∃ cs cd, (Mount w vol t c p o).2.trace = w.trace ++ (.mkdirAll t :: (cs ++ cd))
      ∧ ((∃ s, w.secrets.lookup vol.deploymentName = some s
              ∧ deepEqualMap s.labels (pvDeploymentLabels vol c) = true
              ∧ (Mount w vol t c p o).2.secrets = w.secrets
              ∧ cs = [.getSecret vol.deploymentName])
          ∨ ((∀ s, w.secrets.lookup vol.deploymentName = some s →
                deepEqualMap s.labels (pvDeploymentLabels vol c) = false)
              ∧ (Mount w vol t c p o).2.secrets.lookup vol.deploymentName
                  = some { name := vol.deploymentName, labels := pvDeploymentLabels vol c,
                           stringData := [(lit "rclone.conf", c)] }
              ∧ cs = [.getSecret vol.deploymentName, .deleteSecret vol.deploymentName,
                      .createSecret vol.deploymentName]))
      ∧ ((∃ d, w.deployments.lookup vol.deploymentName = some d
              ∧ deepEqualMap d.labels (pvDeploymentLabels vol c) = true
              ∧ (Mount w vol t c p o).2.deployments = w.deployments
              ∧ cd = [.getDeployment vol.deploymentName])
          ∨ ((∀ d, w.deployments.lookup vol.deploymentName = some d →
                deepEqualMap d.labels (pvDeploymentLabels vol c) = false)
              ∧ (Mount w vol t c p o).2.deployments.lookup vol.deploymentName
                  = some (mountDeployment w.nodeID vol.deploymentName (pvDeploymentLabels vol c) t
                      (mountArgs vol t p o))
              ∧ cd = [.getDeployment vol.deploymentName, .deleteDeployment vol.deploymentName,
                      .deleteDeployment vol.deploymentName,
                      .createDeployment vol.deploymentName])) := by
  unfold Mount mkdirAll at *
  simp only [call_fst] at h ⊢
  cases h0 : w.nextFault with
  | some m => simp [h0] at h
  | none =>
    simp only [h0, Option.map_none'] at h ⊢
    have hs := mountSecret_spec (w.call (.mkdirAll t)).2 vol.deploymentName
      (pvDeploymentLabels vol c) c (labels_empty vol c)
    rcases hms : mountSecret (w.call (.mkdirAll t)).2 vol.deploymentName
      (pvDeploymentLabels vol c) c with ⟨e1, w2⟩
    rw [hms] at hs
    simp only [hms] at h ⊢
    cases e1 with
    | some e => simp at h
    | none =>
      simp only at h hs ⊢
      obtain ⟨hsd, hsn, hsc⟩ := hs trivial
      obtain ⟨hwsec, hwn, hwc⟩ := mountWorkload_spec w2 vol.deploymentName
        (pvDeploymentLabels vol c) t (mountArgs vol t p o) (labels_empty vol c) h
      simp only [call_deployments, call_nodeID, call_secrets, call_trace] at hsd hsn hsc
      refine ⟨by rw [hwn, hsn], ?_⟩
      rcases hsc with ⟨s, hs1, hs2, hs3, hs4⟩ | ⟨hs1, hs2, hs3⟩ <;>
        rcases hwc with ⟨d, hd1, hd2, hd3, hd4⟩ | ⟨hd1, hd2, hd3⟩
      · refine ⟨_, _, ?_, Or.inl ⟨s, hs1, hs2, by rw [hwsec, hs3], rfl⟩,
          Or.inl ⟨d, hsd ▸ hd1, hd2, by rw [hd3, hsd], rfl⟩⟩
        rw [hd4, hs4]; simp
      · refine ⟨_, _, ?_, Or.inl ⟨s, hs1, hs2, by rw [hwsec, hs3], rfl⟩,
          Or.inr ⟨fun d hd => hd1 d (hsd ▸ hd), by rw [hd2, hsn], rfl⟩⟩
        rw [hd3, hs4]; simp
      · refine ⟨_, _, ?_, Or.inr ⟨hs1, by rw [hwsec, hs2], rfl⟩,
          Or.inl ⟨d, hsd ▸ hd1, hd2, by rw [hd3, hsd], rfl⟩⟩
        rw [hd4, hs3]; simp
      · refine ⟨_, _, ?_, Or.inr ⟨hs1, by rw [hwsec, hs2], rfl⟩,
          Or.inr ⟨fun d hd => hd1 d (hsd ▸ hd), by rw [hd2, hsn], rfl⟩⟩
        rw [hd3, hs3]; simp

/-- A successful `Mount` leaves a Secret and a Deployment that pass the label test. -/
theorem Mount_post (w : World) (vol : RcloneVolume) (t c : GoString) (p o : GoMap)
    (h : (Mount w vol t c p o).1 = none) :
    (∃ s, (Mount w vol t c p o).2.secrets.lookup vol.deploymentName = some s
        ∧ deepEqualMap s.labels (pvDeploymentLabels vol c) = true)
      ∧ ∃ d, (Mount w vol t c p o).2.deployments.lookup vol.deploymentName = some d
        ∧ deepEqualMap d.labels (pvDeploymentLabels vol c) = true := by
  obtain ⟨-, cs, cd, -, hs, hd⟩ := Mount_spec w vol t c p o h
  constructor
  · rcases hs with ⟨s, hs1, hs2, hs3, -⟩ | ⟨-, hs2, -⟩
    · exact ⟨s, by rw [hs3]; exact hs1, hs2⟩
    · exact ⟨_, hs2, labels_self vol c⟩
  · rcases hd with ⟨d, hd1, hd2, hd3, -⟩ | ⟨-, hd2, -⟩
    · exact ⟨d, by rw [hd3]; exact hd1, hd2⟩
    · exact ⟨_, hd2, by simpa [mountDeployment] using labels_self vol c⟩

theorem nextFault_of_clear (w : World) (k : Nat)
    (h : ∀ f ∈ w.faults.take (k + 1), f = none) : w.nextFault = none := by
  unfold World.nextFault
  cases hf : w.faults with
  | nil => rfl
  | cons f fs => exact h f (by simp [hf])

theorem clear_tail (fs : List (Option GoString)) (k : Nat)
    (h : ∀ f ∈ fs.take (k + 1), f = none) : ∀ f ∈ fs.tail.take k, f = none := by
  cases fs with
  | nil => simp
  | cons f fs =>
    intro g hg
    exact h g (by simp only [List.take_succ_cons, List.mem_cons]; exact Or.inr (by simpa using hg))

/-- `Mount` on a world whose Secret and Deployment already pass the label test:
it reads, writes nothing, and fails only on an injected failure. -/
theorem Mount_settled (w : World) (vol : RcloneVolume) (t c : GoString) (p o : GoMap)
    (s : Secret) (d : Deployment)
    (hs : w.secrets.lookup vol.deploymentName = some s)
    (hsl : deepEqualMap s.labels (pvDeploymentLabels vol c) = true)
    (hd : w.deployments.lookup vol.deploymentName = some d)
    (hdl : deepEqualMap d.labels (pvDeploymentLabels vol c) = true) :
    (Mount w vol t c p o).2.secrets = w.secrets
      ∧ (Mount w vol t c p o).2.deployments = w.deployments
      ∧ (∃ cs, (Mount w vol t c p o).2.trace = w.trace ++ cs
          ∧ cs <+: [.mkdirAll t, .getSecret vol.deploymentName, .getDeployment vol.deploymentName]
          ∧ ((Mount w vol t c p o).1 = none → cs = [.mkdirAll t, .getSecret vol.deploymentName,
              .getDeployment vol.deploymentName]))
      ∧ ((∀ f ∈ w.faults.take 3, f = none) → (Mount w vol t c p o).1 = none) := by
  unfold Mount mkdirAll
  simp only [call_fst]
  cases h0 : w.nextFault with
  | some m =>
    refine ⟨by simp, by simp, ⟨[.mkdirAll t], by simp, by simp [List.prefix_iff_eq_take], by simp⟩, ?_⟩
    intro hc
    rw [nextFault_of_clear w 2 hc] at h0
    simp at h0
  | none =>
    simp only [Option.map_none']
    rw [mountSecret_settled _ _ _ _ s (by simpa using hs) hsl]
    cases h1 : (w.call (.mkdirAll t)).2.nextFault with
    | some m =>
      refine ⟨by simp, by simp,
        ⟨[.mkdirAll t, .getSecret vol.deploymentName], by simp,
          by simp [List.prefix_iff_eq_take], by simp⟩, ?_⟩
      intro hc
      have := nextFault_of_clear (w.call (.mkdirAll t)).2 1 (by simpa using clear_tail _ 2 hc)
      rw [this] at h1
      simp at h1
    | none =>
      simp only [Option.map_none']
      rw [mountWorkload_settled _ _ _ _ _ d (by simpa using hd) hdl]
      refine ⟨by simp, by simp,
        ⟨[.mkdirAll t, .getSecret vol.deploymentName, .getDeployment vol.deploymentName],
          by simp, by simp, by simp⟩, ?_⟩
      intro hc
      have h2 := nextFault_of_clear ((w.call (.mkdirAll t)).2.call (.getSecret vol.deploymentName)).2 0
        (by simpa using clear_tail _ 1 (clear_tail _ 2 hc))
      simp [h2]

theorem no_write_of_prefix (cs : List Call) (t n : GoString)
    (h : cs <+: [.mkdirAll t, .getSecret n, .getDeployment n]) :
    ∀ c ∈ cs, c.isWrite = false := by
  intro c hc
  have := h.subset hc
  simp at this
  rcases this with rfl | rfl | rfl <;> rfl

/-! ## C1 to C4: the reconciler -/

/-- C1: if `Rclone.Mount` returns nil, the cluster holds exactly one Secret and
exactly one Deployment named `deploymentName(identity)`, and the labels of both
are the map with `volumeid` bound to the volume handle and `hash` bound to the
first 63 hexadecimal characters of the SHA-256 digest of the config. -/
theorem Mount_ok_one_secret_one_deployment (w : World) (vol : RcloneVolume)
    (targetPath config : GoString) (overrides order : GoMap)
    (h : (Mount w vol targetPath config overrides order).1 = none) :
    countNamed (Mount w vol targetPath config overrides order).2.secrets vol.deploymentName = 1
      ∧ countNamed (Mount w vol targetPath config overrides order).2.deployments
          vol.deploymentName = 1
      ∧ (∃ s, (Mount w vol targetPath config overrides order).2.secrets.lookup
              vol.deploymentName = some s
          ∧ deepEqualMap s.labels
              [(lit "volumeid", vol.ID), (lit "hash", (hexEncode (sha256 config)).take 63)] = true)
      ∧ (∃ d, (Mount w vol targetPath config overrides order).2.deployments.lookup
              vol.deploymentName = some d
          ∧ deepEqualMap d.labels
              [(lit "volumeid", vol.ID), (lit "hash", (hexEncode (sha256 config)).take 63)] = true)
      ∧ ((hexEncode (sha256 config)).take 63).length = 63 := by
  obtain ⟨⟨s, hs, hsl⟩, ⟨d, hd, hdl⟩⟩ := Mount_post w vol targetPath config overrides order h
  exact ⟨countNamed_of_lookup _ _ s hs, countNamed_of_lookup _ _ d hd, ⟨s, hs, hsl⟩,
    ⟨d, hd, hdl⟩, secretHash_length config⟩

/-- C1 at the sample volume on the empty cluster. -/
theorem Mount_ok_one_secret_one_deployment_witness :
    sampleMount.1 = none
      ∧ countNamed sampleMount.2.secrets sampleVolume.deploymentName = 1
      ∧ countNamed sampleMount.2.deployments sampleVolume.deploymentName = 1
      ∧ (∃ s, sampleMount.2.secrets.lookup sampleVolume.deploymentName = some s
          ∧ deepEqualMap s.labels
              [(lit "volumeid", sampleVolume.ID),
               (lit "hash", (hexEncode (sha256 (lit "[s3]"))).take 63)] = true)
      ∧ (∃ d, sampleMount.2.deployments.lookup sampleVolume.deploymentName = some d
          ∧ deepEqualMap d.labels
              [(lit "volumeid", sampleVolume.ID),
               (lit "hash", (hexEncode (sha256 (lit "[s3]"))).take 63)] = true)
      ∧ ((hexEncode (sha256 (lit "[s3]"))).take 63).length = 63 :=
  ⟨by decide, Mount_ok_one_secret_one_deployment emptyWorld sampleVolume
    (lit "/var/lib/kubelet/t1") (lit "[s3]") [] (defaultFlags sampleVolume) (by decide)⟩

/-- C2: after a successful `Mount`, a second call with the same identity,
config, overrides and target path deletes nothing and creates nothing, leaves
the Secret and the Deployment exactly as the first call left them (one of
each), and returns nil whenever the environment injects no failure into its
three calls (create the directory, read the Secret, read the Deployment). -/
theorem Mount_twice_idempotent (w : World) (vol : RcloneVolume)
    (targetPath config : GoString) (overrides order order2 : GoMap)
    (h : (Mount w vol targetPath config overrides order).1 = none) :
    (Mount (Mount w vol targetPath config overrides order).2 vol targetPath config overrides
        order2).2.secrets = (Mount w vol targetPath config overrides order).2.secrets
      ∧ (Mount (Mount w vol targetPath config overrides order).2 vol targetPath config overrides
          order2).2.deployments = (Mount w vol targetPath config overrides order).2.deployments
      ∧ countNamed (Mount (Mount w vol targetPath config overrides order).2 vol targetPath config
          overrides order2).2.secrets vol.deploymentName = 1
      ∧ countNamed (Mount (Mount w vol targetPath config overrides order).2 vol targetPath config
          overrides order2).2.deployments vol.deploymentName = 1
      ∧ (∃ cs, (Mount (Mount w vol targetPath config overrides order).2 vol targetPath config
            overrides order2).2.trace
              = (Mount w vol targetPath config overrides order).2.trace ++ cs
          ∧ ∀ c ∈ cs, c.isWrite = false)
      ∧ ((∀ f ∈ (Mount w vol targetPath config overrides order).2.faults.take 3, f = none) →
          (Mount (Mount w vol targetPath config overrides order).2 vol targetPath config overrides
            order2).1 = none) := by
  obtain ⟨⟨s, hs, hsl⟩, ⟨d, hd, hdl⟩⟩ := Mount_post w vol targetPath config overrides order h
  obtain ⟨e1, e2, ⟨cs, hcs, hpre, -⟩, hok⟩ :=
    Mount_settled (Mount w vol targetPath config overrides order).2 vol targetPath config
      overrides order2 s d hs hsl hd hdl
  refine ⟨e1, e2, ?_, ?_, ⟨cs, hcs, no_write_of_prefix cs _ _ hpre⟩, hok⟩
  · rw [e1]; exact countNamed_of_lookup _ _ s hs
  · rw [e2]; exact countNamed_of_lookup _ _ d hd

/-- C2 at the sample volume on the empty cluster. -/
theorem Mount_twice_idempotent_witness :
    sampleMount.1 = none
      ∧ (Mount sampleMount.2 sampleVolume (lit "/var/lib/kubelet/t1") (lit "[s3]") []
          (defaultFlags sampleVolume)).2.secrets = sampleMount.2.secrets
      ∧ (Mount sampleMount.2 sampleVolume (lit "/var/lib/kubelet/t1") (lit "[s3]") []
          (defaultFlags sampleVolume)).1 = none :=
  have h := Mount_twice_idempotent emptyWorld sampleVolume (lit "/var/lib/kubelet/t1")
    (lit "[s3]") [] (defaultFlags sampleVolume) (defaultFlags sampleVolume) (by decide)
  ⟨by decide, h.1, h.2.2.2.2.2 (by decide)⟩

theorem secretHash_ne_of_labels_ne (vol : RcloneVolume) (c1 c2 : GoString)
    (h : pvDeploymentLabels vol c1 ≠ pvDeploymentLabels vol c2) : secretHash c1 ≠ secretHash c2 := by
  intro he
  exact h (by simp [pvDeploymentLabels, he])

/-- C3: after a successful `Mount` with config `c1`, a successful `Mount` of the
same identity with a config `c2` of a different fingerprint issues, in this
order, the deletion and the creation of the Secret and the deletion (twice)
and the creation of the Deployment; afterwards the Secret holds `c2` under the
key `rclone.conf` and both objects carry the label pair of `c2`. -/
theorem Mount_drift_recreates (w : World) (vol : RcloneVolume) (c1 c2 t1 t2 : GoString)
    (p1 p2 o1 o2 : GoMap)
    (hne : pvDeploymentLabels vol c1 ≠ pvDeploymentLabels vol c2)
    (h1 : (Mount w vol t1 c1 p1 o1).1 = none)
    (h2 : (Mount (Mount w vol t1 c1 p1 o1).2 vol t2 c2 p2 o2).1 = none) :
    (Mount (Mount w vol t1 c1 p1 o1).2 vol t2 c2 p2 o2).2.trace
        = (Mount w vol t1 c1 p1 o1).2.trace ++
          [.mkdirAll t2, .getSecret vol.deploymentName, .deleteSecret vol.deploymentName,
           .createSecret vol.deploymentName, .getDeployment vol.deploymentName,
           .deleteDeployment vol.deploymentName, .deleteDeployment vol.deploymentName,
           .createDeployment vol.deploymentName]
      ∧ (Mount (Mount w vol t1 c1 p1 o1).2 vol t2 c2 p2 o2).2.secrets.lookup vol.deploymentName
        = some { name := vol.deploymentName
                 labels := [(lit "volumeid", vol.ID), (lit "hash", secretHash c2)]
                 stringData := [(lit "rclone.conf", c2)] }
      ∧ (Mount (Mount w vol t1 c1 p1 o1).2 vol t2 c2 p2 o2).2.deployments.lookup
          vol.deploymentName
        = some (mountDeployment w.nodeID vol.deploymentName
            [(lit "volumeid", vol.ID), (lit "hash", secretHash c2)] t2 (mountArgs vol t2 p2 o2)) := by
  have hh := secretHash_ne_of_labels_ne vol c1 c2 hne
  obtain ⟨⟨s, hs, hsl⟩, ⟨d, hd, hdl⟩⟩ := Mount_post w vol t1 c1 p1 o1 h1
  obtain ⟨hn1, -⟩ := Mount_spec w vol t1 c1 p1 o1 h1
  obtain ⟨-, cs, cd, htr, hsec, hdep⟩ := Mount_spec (Mount w vol t1 c1 p1 o1).2 vol t2 c2 p2 o2 h2
  rcases hsec with ⟨s', hs1, hs2, -, -⟩ | ⟨-, hsnew, hcs⟩
  · rw [hs] at hs1
    cases hs1
    rw [labels_drift s.labels vol c1 c2 hh hsl] at hs2
    simp at hs2
  · rcases hdep with ⟨d', hd1, hd2, -, -⟩ | ⟨-, hdnew, hcd⟩
    · rw [hd] at hd1
      cases hd1
      rw [labels_drift d.labels vol c1 c2 hh hdl] at hd2
      simp at hd2
    · refine ⟨?_, hsnew, ?_⟩
      · rw [htr, hcs, hcd]; simp
      · rw [hdnew, hn1]; rfl

/-- C3 at the sample volume: the config changes from `[s3]` to `[gcs]`. -/
theorem Mount_drift_recreates_witness :
    pvDeploymentLabels sampleVolume (lit "[s3]") ≠ pvDeploymentLabels sampleVolume (lit "[gcs]")
      ∧ sampleMount.1 = none
      ∧ (Mount sampleMount.2 sampleVolume (lit "/var/lib/kubelet/t1") (lit "[gcs]") []
          (defaultFlags sampleVolume)).1 = none
      ∧ (Mount sampleMount.2 sampleVolume (lit "/var/lib/kubelet/t1") (lit "[gcs]") []
          (defaultFlags sampleVolume)).2.secrets.lookup sampleVolume.deploymentName
        = some { name := sampleVolume.deploymentName
                 labels := [(lit "volumeid", sampleVolume.ID), (lit "hash", secretHash (lit "[gcs]"))]
                 stringData := [(lit "rclone.conf", lit "[gcs]")] } :=
  ⟨by decide, by decide, by decide,
    (Mount_drift_recreates emptyWorld sampleVolume (lit "[s3]") (lit "[gcs]")
      (lit "/var/lib/kubelet/t1") (lit "/var/lib/kubelet/t1") [] []
      (defaultFlags sampleVolume) (defaultFlags sampleVolume)
      (by decide) (by decide) (by decide)).2.1⟩

/-- C4: the label pair is determined by the volume handle and the config
alone (two identities with the same handle get the same pair, and the
Deployment that `Mount` builds carries it whatever the target path and the
arguments), and a `Mount` of the same identity and config with another target
path and other overrides, after a successful first call, deletes nothing and
creates nothing: the Secret and the Deployment stay as they were, so a
Deployment that the first call created keeps the first target path and the
first argument list. -/
theorem Mount_fingerprint_ignores_target (w : World) (vol : RcloneVolume)
    (config t1 t2 : GoString) (p1 p2 o1 o2 : GoMap)
    (h1 : (Mount w vol t1 config p1 o1).1 = none) :
    (∀ vol2 : RcloneVolume, vol2.ID = vol.ID →
        pvDeploymentLabels vol2 config = pvDeploymentLabels vol config)
      ∧ (∀ nodeID name a1 a2,
          (mountDeployment nodeID name (pvDeploymentLabels vol config) t1 a1).labels
            = (mountDeployment nodeID name (pvDeploymentLabels vol config) t2 a2).labels)
      ∧ (Mount (Mount w vol t1 config p1 o1).2 vol t2 config p2 o2).2.secrets
          = (Mount w vol t1 config p1 o1).2.secrets
      ∧ (Mount (Mount w vol t1 config p1 o1).2 vol t2 config p2 o2).2.deployments
          = (Mount w vol t1 config p1 o1).2.deployments
      ∧ (∃ cs, (Mount (Mount w vol t1 config p1 o1).2 vol t2 config p2 o2).2.trace
              = (Mount w vol t1 config p1 o1).2.trace ++ cs
          ∧ ∀ c ∈ cs, c.isWrite = false)
      ∧ (w.deployments.lookup vol.deploymentName = none →
          (Mount (Mount w vol t1 config p1 o1).2 vol t2 config p2 o2).2.deployments.lookup
              vol.deploymentName
            = some (mountDeployment w.nodeID vol.deploymentName (pvDeploymentLabels vol config) t1
                (mountArgs vol t1 p1 o1))) := by
  obtain ⟨⟨s, hs, hsl⟩, ⟨d, hd, hdl⟩⟩ := Mount_post w vol t1 config p1 o1 h1
  obtain ⟨e1, e2, ⟨cs, hcs, hpre, -⟩, -⟩ :=
    Mount_settled (Mount w vol t1 config p1 o1).2 vol t2 config p2 o2 s d hs hsl hd hdl
  refine ⟨?_, fun _ _ _ _ => rfl, e1, e2, ⟨cs, hcs, no_write_of_prefix cs _ _ hpre⟩, ?_⟩
  · intro vol2 hid
    simp [pvDeploymentLabels, hid]
  · intro habs
    obtain ⟨-, cs, cd, -, -, hdep⟩ := Mount_spec w vol t1 config p1 o1 h1
    rw [e2]
    rcases hdep with ⟨d', hd1, -⟩ | ⟨-, hdnew, -⟩
    · rw [habs] at hd1; cases hd1
    · exact hdnew

/-- C4 at the sample volume: the second call names another target path and an override. -/
theorem Mount_fingerprint_ignores_target_witness :
    sampleMount.1 = none
      ∧ (Mount sampleMount.2 sampleVolume (lit "/var/lib/kubelet/t2") (lit "[s3]")
          [(lit "vfs-cache-mode", lit "off")] (defaultFlags sampleVolume)).2.deployments
        = sampleMount.2.deployments
      ∧ (Mount sampleMount.2 sampleVolume (lit "/var/lib/kubelet/t2") (lit "[s3]")
          [(lit "vfs-cache-mode", lit "off")] (defaultFlags sampleVolume)).2.deployments.lookup
            sampleVolume.deploymentName
        = some (mountDeployment emptyWorld.nodeID sampleVolume.deploymentName
            (pvDeploymentLabels sampleVolume (lit "[s3]")) (lit "/var/lib/kubelet/t1")
            (mountArgs sampleVolume (lit "/var/lib/kubelet/t1") [] (defaultFlags sampleVolume))) :=
  have h := Mount_fingerprint_ignores_target emptyWorld sampleVolume (lit "[s3]")
    (lit "/var/lib/kubelet/t1") (lit "/var/lib/kubelet/t2") [] [(lit "vfs-cache-mode", lit "off")]
    (defaultFlags sampleVolume) (defaultFlags sampleVolume) (by decide)
  ⟨by decide, h.2.2.2.1, h.2.2.2.2.2 (by decide)⟩

/-! ## C5: teardown -/

/-- C5: `Rclone.Unmount` returns the not-found answer of either deletion as an
error. When the Deployment is already absent (and the call itself goes
through), `Unmount` fails with that answer after the one call and leaves the
Secret untouched; when the Deployment exists and the Secret is absent, it
deletes the Deployment and then fails with the not-found answer for the
Secret. -/
theorem Unmount_not_found_is_returned (w : World) (vol : RcloneVolume)
    (hf : w.nextFault = none) :
    (w.deployments.lookup vol.deploymentName = none →
        (Unmount w vol).1
            = some (.notFound (notFoundMsg (lit "deployments.apps") vol.deploymentName))
          ∧ (Unmount w vol).2.secrets = w.secrets
          ∧ (Unmount w vol).2.trace = w.trace ++ [.deleteDeployment vol.deploymentName])
      ∧ (∀ d, w.deployments.lookup vol.deploymentName = some d →
          w.secrets.lookup vol.deploymentName = none →
          (w.call (.deleteDeployment vol.deploymentName)).2.nextFault = none →
          (Unmount w vol).1 = some (.notFound (notFoundMsg (lit "secrets") vol.deploymentName))
            ∧ (Unmount w vol).2.deployments.lookup vol.deploymentName = none) := by
  constructor
  · intro hd
    unfold Unmount deleteDeployment
    simp [hf, hd]
  · intro d hd hs hf2
    unfold Unmount deleteDeployment deleteSecret
    simp only [call_fst, call_deployments, hf, hd]
    have hf3 : ∀ w3 : World, w3.faults = w.faults.tail → w3.nextFault = none := by
      intro w3 h3
      unfold World.nextFault at hf2 ⊢
      rw [h3]
      exact hf2
    rw [hf3 _ rfl]
    simp [hs]

/-- C5 at the cluster that holds the Secret of the sample volume and no
Deployment: `Unmount` fails and the Secret is still there. -/
theorem Unmount_not_found_is_returned_witness :
    secretOnlyWorld.nextFault = none
      ∧ secretOnlyWorld.deployments.lookup sampleVolume.deploymentName = none
      ∧ (Unmount secretOnlyWorld sampleVolume).1
          = some (.notFound (notFoundMsg (lit "deployments.apps") sampleVolume.deploymentName))
      ∧ (Unmount secretOnlyWorld sampleVolume).2.secrets = secretOnlyWorld.secrets
      ∧ countNamed (Unmount secretOnlyWorld sampleVolume).2.secrets
          sampleVolume.deploymentName = 1 :=
  have h := (Unmount_not_found_is_returned secretOnlyWorld sampleVolume rfl).1 (by decide)
  ⟨rfl, by decide, h.1, h.2.1, by decide⟩

/-! ## C6: the flag composer -/

theorem defaultFlags_eq (vol : RcloneVolume) :
    defaultFlags vol =
      [(lit "rc", lit ""), (lit "rc-addr", lit "0.0.0.0:5572"), (lit "rc-enable-metrics", lit ""),
       (lit "rc-web-gui", lit ""), (lit "rc-web-gui-no-open-browser", lit ""),
       (lit "rc-no-auth", lit ""), (lit "volname", vol.ID), (lit "devname", vol.ID),
       (lit "cache-info-age", lit "72h"), (lit "cache-chunk-clean-interval", lit "15m"),
       (lit "dir-cache-time", lit "60s"), (lit "vfs-cache-mode", lit "full"),
       (lit "vfs-write-back", lit "10s"), (lit "vfs-cache-max-size", lit "1g"),
       (lit "allow-other", lit "true"), (lit "allow-non-empty", lit "true")] := by
  rfl

theorem defaultFlags_keys_nodup (vol : RcloneVolume) : (mapKeys (defaultFlags vol)).Nodup := by
  rw [defaultFlags_eq]
  simp only [mapKeys, List.map]
  decide

theorem mapGet_eq_none_iff (m : GoMap) (k : GoString) : mapGet m k = none ↔ k ∉ mapKeys m := by
  induction m with
  | nil => simp [mapGet, mapKeys]
  | cons kv rest ih =>
    obtain ⟨k', v⟩ := kv
    unfold mapGet
    by_cases h : k' = k
    · simp [h, mapKeys]
    · simp only [h, if_false, ih]
      simp [mapKeys, Ne.symm h]

theorem foldl_default (parameters order : GoMap) (init : List GoString) :
    order.foldl
        (fun acc kv => if (mapGet parameters kv.1).isNone then acc ++ [fmtFlag kv.1 kv.2] else acc)
        init
      = init ++ (order.filter (fun kv => (mapGet parameters kv.1).isNone)).map
          (fun kv => fmtFlag kv.1 kv.2) := by
  induction order generalizing init with
  | nil => simp
  | cons kv rest ih =>
    simp only [List.foldl_cons]
    rw [ih]
    by_cases h : (mapGet parameters kv.1).isNone = true
    · simp [h, List.filter_cons]
    · simp [h, List.filter_cons]

theorem foldl_user (parameters : GoMap) (init : List GoString) :
    parameters.foldl (fun acc kv => acc ++ [fmtFlag kv.1 kv.2]) init
      = init ++ parameters.map (fun kv => fmtFlag kv.1 kv.2) := by
  induction parameters generalizing init with
  | nil => simp
  | cons kv rest ih => simp only [List.foldl_cons]; rw [ih]; simp

theorem mountArgs_eq (vol : RcloneVolume) (t : GoString) (parameters order : GoMap) :
    mountArgs vol t parameters order
      = [lit "mount", vol.Remote ++ lit ":/" ++ vol.RemotePath, t]
        ++ (order.filter (fun kv => (mapGet parameters kv.1).isNone) ++ parameters).map
            (fun kv => fmtFlag kv.1 kv.2) := by
  unfold mountArgs
  simp only [foldl_user, foldl_default]
  simp

theorem filter_key_of_nodup (m : GoMap) (k v : GoString) (hnd : (mapKeys m).Nodup)
    (hm : (k, v) ∈ m) : m.filter (fun kv => decide (kv.1 = k)) = [(k, v)] := by
  induction m with
  | nil => simp at hm
  | cons kv rest ih =>
    obtain ⟨k', v'⟩ := kv
    simp only [mapKeys, List.map_cons, List.nodup_cons] at hnd
    rcases List.mem_cons.mp hm with h | h
    · cases h
      have : rest.filter (fun kv => decide (kv.1 = k)) = [] := by
        rw [List.filter_eq_nil_iff]
        intro a ha
        simp only [decide_eq_true_eq]
        intro hk
        exact hnd.1 (List.mem_map.mpr ⟨a, ha, hk⟩)
      simp [List.filter_cons, this]
    · have hne : k' ≠ k := by
        rintro rfl
        exact hnd.1 (List.mem_map.mpr ⟨(k', v), h, rfl⟩)
      simp only [List.filter_cons, hne, decide_False, Bool.false_eq_true, if_false]
      exact ih hnd.2 h

theorem default_flag_text (vol : RcloneVolume) (kv : GoString × GoString)
    (hkv : kv ∈ defaultFlags vol) (hk : kv.1 ≠ lit "vfs-cache-mode") :
    fmtFlag kv.1 kv.2 ≠ lit "--vfs-cache-mode=off"
      ∧ fmtFlag kv.1 kv.2 ≠ lit "--vfs-cache-mode=full" := by
  rw [defaultFlags_eq] at hkv
  simp only [List.mem_cons, List.mem_singleton, List.not_mem_nil, or_false] at hkv
  rcases hkv with rfl | rfl | rfl | rfl | rfl | rfl | rfl | rfl | rfl | rfl | rfl | rfl | rfl
    | rfl | rfl | rfl
  all_goals first
    | exact absurd rfl hk
    | (constructor <;> decide)
    | (unfold fmtFlag; constructor <;> (split <;> simp [lit]))

/-- C6: the argument list of `Rclone.Mount` is `mount`, `<remote>:/<remotePath>`,
the target path, then one argument per emitted flag: the default flags whose
key is not a key of the overrides (exactly those), followed by every override.
No key is emitted twice, every override key is emitted exactly once with its
own value, as `--k=v` when the value is not empty and as `--k` otherwise. With
the single override `vfs-cache-mode` set to `off`, the flags after the three
positional arguments contain `--vfs-cache-mode=off` exactly once and never
`--vfs-cache-mode=full`, and so does the whole list unless the target path is
itself one of these two strings. -/
theorem mountArgs_flag_precedence (vol : RcloneVolume) (targetPath : GoString)
    (overrides order : GoMap)
    (hp : (mapKeys overrides).Nodup) (ho : order.Perm (defaultFlags vol)) :
    ∃ emitted : GoMap,
      mountArgs vol targetPath overrides order
          = [lit "mount", vol.Remote ++ lit ":/" ++ vol.RemotePath, targetPath]
            ++ (emitted ++ overrides).map (fun kv => fmtFlag kv.1 kv.2)
        ∧ (∀ kv, kv ∈ emitted ↔ kv ∈ defaultFlags vol ∧ kv.1 ∉ mapKeys overrides)
        ∧ (mapKeys (emitted ++ overrides)).Nodup
        ∧ (∀ k v, (k, v) ∈ overrides →
            (emitted ++ overrides).filter (fun kv => decide (kv.1 = k)) = [(k, v)]
              ∧ fmtFlag k v = if v = [] then lit "--" ++ k else lit "--" ++ k ++ lit "=" ++ v)
        ∧ (overrides = [(lit "vfs-cache-mode", lit "off")] →
            ((mountArgs vol targetPath overrides order).drop 3).count
                (lit "--vfs-cache-mode=off") = 1
              ∧ lit "--vfs-cache-mode=full" ∉ (mountArgs vol targetPath overrides order).drop 3
              ∧ (targetPath ≠ lit "--vfs-cache-mode=off" →
                  (mountArgs vol targetPath overrides order).count
                    (lit "--vfs-cache-mode=off") = 1)
              ∧ (targetPath ≠ lit "--vfs-cache-mode=full" →
                  lit "--vfs-cache-mode=full" ∉ mountArgs vol targetPath overrides order)) := by
  have hmem : ∀ kv, kv ∈ order.filter (fun kv => (mapGet overrides kv.1).isNone)
      ↔ kv ∈ defaultFlags vol ∧ kv.1 ∉ mapKeys overrides := by
    intro kv
    rw [List.mem_filter, ho.mem_iff, Option.isNone_iff_eq_none, mapGet_eq_none_iff]
  have hsub : (order.filter (fun kv => (mapGet overrides kv.1).isNone)).Sublist order :=
    List.filter_sublist _
  have hnd_order : (mapKeys order).Nodup :=
    (ho.map Prod.fst).nodup_iff.mpr (defaultFlags_keys_nodup vol)
  have hnd_em : (mapKeys (order.filter (fun kv => (mapGet overrides kv.1).isNone))).Nodup :=
    (hsub.map Prod.fst).nodup hnd_order
  have hdisj : ∀ k, k ∈ mapKeys (order.filter (fun kv => (mapGet overrides kv.1).isNone)) →
      k ∉ mapKeys overrides := by
    intro k hk
    obtain ⟨kv, hkv, rfl⟩ := List.mem_map.mp hk
    exact ((hmem kv).mp hkv).2
  refine ⟨order.filter (fun kv => (mapGet overrides kv.1).isNone), mountArgs_eq _ _ _ _, hmem,
    ?_, ?_, ?_⟩
  · unfold mapKeys at *
    rw [List.map_append]
    exact List.Nodup.append hnd_em hp (fun k h1 h2 => hdisj k h1 h2)
  · intro k v hkv
    constructor
    · rw [List.filter_append, filter_key_of_nodup overrides k v hp hkv]
      have : (order.filter (fun kv => (mapGet overrides kv.1).isNone)).filter
          (fun kv => decide (kv.1 = k)) = [] := by
        rw [List.filter_eq_nil_iff]
        intro a ha
        simp only [decide_eq_true_eq]
        intro hk
        exact hdisj k (List.mem_map.mpr ⟨a, ha, hk⟩) (List.mem_map.mpr ⟨(k, v), hkv, rfl⟩)
      rw [this]; rfl
    · unfold fmtFlag
      by_cases hv : v = [] <;> simp [hv]
  · intro hov
    subst hov
    have htext : ∀ kv ∈ order.filter
        (fun kv => (mapGet [(lit "vfs-cache-mode", lit "off")] kv.1).isNone),
        fmtFlag kv.1 kv.2 ≠ lit "--vfs-cache-mode=off"
          ∧ fmtFlag kv.1 kv.2 ≠ lit "--vfs-cache-mode=full" := by
      intro kv hkv
      obtain ⟨h1, h2⟩ := (hmem kv).mp hkv
      exact default_flag_text vol kv h1 (by simpa [mapKeys] using h2)
    have hoff : lit "--vfs-cache-mode=off" ∉
        (order.filter (fun kv => (mapGet [(lit "vfs-cache-mode", lit "off")] kv.1).isNone)).map
          (fun kv => fmtFlag kv.1 kv.2) := by
      intro hin
      obtain ⟨kv, hkv, he⟩ := List.mem_map.mp hin
      exact (htext kv hkv).1 he
    have hfull : lit "--vfs-cache-mode=full" ∉
        (order.filter (fun kv => (mapGet [(lit "vfs-cache-mode", lit "off")] kv.1).isNone)).map
          (fun kv => fmtFlag kv.1 kv.2) := by
      intro hin
      obtain ⟨kv, hkv, he⟩ := List.mem_map.mp hin
      exact (htext kv hkv).2 he
    have hlast : fmtFlag (lit "vfs-cache-mode") (lit "off") = lit "--vfs-cache-mode=off" := by
      decide
    have hne : lit "--vfs-cache-mode=full" ≠ lit "--vfs-cache-mode=off" := by decide
    have hm : lit "mount" ≠ lit "--vfs-cache-mode=off" ∧ lit "mount" ≠ lit "--vfs-cache-mode=full" := by
      constructor <;> decide
    have hr : ∀ s : GoString, 58 ∉ s → vol.Remote ++ lit ":/" ++ vol.RemotePath ≠ s := by
      intro s hs he
      apply hs
      rw [← he]
      simp [lit]
    have hroff : vol.Remote ++ lit ":/" ++ vol.RemotePath ≠ lit "--vfs-cache-mode=off" :=
      hr _ (by decide)
    have hrfull : vol.Remote ++ lit ":/" ++ vol.RemotePath ≠ lit "--vfs-cache-mode=full" :=
      hr _ (by decide)
    rw [mountArgs_eq]
    simp only [List.map_append, List.map_cons, List.map_nil, hlast]
    simp only [List.append_assoc] at hroff hrfull
    refine ⟨?_, ?_, ?_, ?_⟩
    · simp [List.count_append, List.count_eq_zero.mpr hoff]
    · simp [hfull, hne]
    · intro ht
      simp [List.count_append, List.count_eq_zero.mpr hoff, List.count_cons, hm.1, hroff, ht]
    · intro ht
      simp [hfull, hne, Ne.symm hm.2, Ne.symm hrfull, Ne.symm ht]

/-- C6 at the sample volume with the override `vfs-cache-mode` set to `off`. -/
theorem mountArgs_flag_precedence_witness :
    (mapKeys [(lit "vfs-cache-mode", lit "off")]).Nodup
      ∧ (defaultFlags sampleVolume).Perm (defaultFlags sampleVolume)
      ∧ (mountArgs sampleVolume (lit "/var/lib/kubelet/t1") [(lit "vfs-cache-mode", lit "off")]
            (defaultFlags sampleVolume)).count (lit "--vfs-cache-mode=off") = 1
      ∧ lit "--vfs-cache-mode=full" ∉
          mountArgs sampleVolume (lit "/var/lib/kubelet/t1") [(lit "vfs-cache-mode", lit "off")]
            (defaultFlags sampleVolume) :=
  have h := mountArgs_flag_precedence sampleVolume (lit "/var/lib/kubelet/t1")
    [(lit "vfs-cache-mode", lit "off")] (defaultFlags sampleVolume) (by decide) (List.Perm.refl _)
  ⟨by decide, List.Perm.refl _,
    h.choose_spec.2.2.2.2 rfl |>.2.2.1 (by decide),
    h.choose_spec.2.2.2.2 rfl |>.2.2.2 (by decide)⟩

/-! ## C7: the overrides of the publish path -/

theorem collectMountArgs_nil (ctx : GoMap) :
    collectMountArgs ctx none
      = if ctx.any (fun kv => hasPrefix kv.1 (lit "mount/")) then .error nilMapPanic
        else .ok none := by
  induction ctx with
  | nil => rfl
  | cons kv rest ih =>
    obtain ⟨k, v⟩ := kv
    unfold collectMountArgs
    by_cases h : hasPrefix k (lit "mount/") = true
    · simp [h]
    · have h' : hasPrefix k (lit "mount/") = false := by simpa using h
      simp only [h', Bool.false_eq_true, if_false, ih, List.any_cons, Bool.false_or]

/-- C7: on a valid publish request whose target is not a mount point, a
volume-context entry with a key that starts with `mount/` makes
`NodePublishVolume` panic with a write to the nil map `mountArgs`, before
`Mount` is called: the only call issued is the mount-table probe. Without such
an entry the override map handed to `Mount` is the nil map. -/
theorem NodePublishVolume_mount_key_panics (fuel : Nat) (w : World)
    (req : NodePublishVolumeRequest) (order : GoMap) (conf remote path : GoString)
    (hv : validatePublishVolumeRequest req = none)
    (hc : mapGet req.secrets (lit "rclone.conf") = some conf)
    (hr : mapGet req.volumeContext (lit "remote") = some remote)
    (hp : mapGet req.volumeContext (lit "path") = some path)
    (hm : (isLikelyNotMountPoint w req.targetPath).1 = ⟨true, none⟩) :
    (req.volumeContext.any (fun kv => hasPrefix kv.1 (lit "mount/")) = true →
        (NodePublishVolume fuel w req order).1 = .panic nilMapPanic
          ∧ (NodePublishVolume fuel w req order).2.trace
              = w.trace ++ [.isLikelyNotMountPoint req.targetPath])
      ∧ (req.volumeContext.any (fun kv => hasPrefix kv.1 (lit "mount/")) = false →
        NodePublishVolume fuel w req order
          = publishMount fuel (isLikelyNotMountPoint w req.targetPath).2 req conf remote path order
          ∧ collectMountArgs req.volumeContext none = .ok none) := by
  have htr : (isLikelyNotMountPoint w req.targetPath).2.trace
      = w.trace ++ [.isLikelyNotMountPoint req.targetPath] := by
    unfold isLikelyNotMountPoint
    cases w.probes <;> rfl
  unfold NodePublishVolume
  simp only [hv, hc, hr, hp]
  rcases hpr : isLikelyNotMountPoint w req.targetPath with ⟨probe, w1⟩
  rw [hpr] at hm htr
  simp only at hm htr
  subst hm
  simp only [publishProbed, Bool.not_true, Bool.false_eq_true, if_false]
  constructor
  · intro hany
    unfold publishMount
    rw [collectMountArgs_nil, hany]
    simp [htr]
  · intro hany
    refine ⟨trivial, ?_⟩
    rw [collectMountArgs_nil, hany]
    simp

/-- C7 at the sample request, whose context holds `mount/vfs-cache-mode`. -/
theorem NodePublishVolume_mount_key_panics_witness :
    validatePublishVolumeRequest sampleRequest = none
      ∧ mapGet sampleRequest.secrets (lit "rclone.conf") = some (lit "[s3]")
      ∧ mapGet sampleRequest.volumeContext (lit "remote") = some (lit "s3")
      ∧ mapGet sampleRequest.volumeContext (lit "path") = some (lit "bucket/data")
      ∧ (isLikelyNotMountPoint emptyWorld sampleRequest.targetPath).1 = ⟨true, none⟩
      ∧ (NodePublishVolume 10 emptyWorld sampleRequest (defaultFlags sampleVolume)).1
          = .panic nilMapPanic
      ∧ (NodePublishVolume 10 emptyWorld sampleRequest (defaultFlags sampleVolume)).2.trace
          = [.isLikelyNotMountPoint sampleRequest.targetPath] :=
  have h := (NodePublishVolume_mount_key_panics 10 emptyWorld sampleRequest
    (defaultFlags sampleVolume) (lit "[s3]") (lit "s3") (lit "bucket/data")
    (by decide) (by decide) (by decide) (by decide) (by decide)).1 (by decide)
  ⟨by decide, by decide, by decide, by decide, by decide, h.1, h.2⟩

/-! ## C8: the mount waiter -/

theorem pollDelay_lt : pollDelay < timeoutDelay := by decide

theorem isLikelyNotMountPoint_now (w : World) (p : GoString) :
    (isLikelyNotMountPoint w p).2.now = w.now := by
  unfold isLikelyNotMountPoint
  cases w.probes <;> rfl

theorem isLikelyNotMountPoint_probes (w : World) (p : GoString) :
    (isLikelyNotMountPoint w p).2.probes = w.probes.tail := by
  unfold isLikelyNotMountPoint
  cases w.probes <;> rfl

theorem isLikelyNotMountPoint_answer (w : World) (p : GoString)
    (h : ∀ a ∈ w.probes, a.notMnt = true) : (isLikelyNotMountPoint w p).1.notMnt = true := by
  unfold isLikelyNotMountPoint
  cases hp : w.probes with
  | nil => rfl
  | cons a rest => exact h a (by simp [hp])

/-- C8: no run of `nodeServer.WaitForMountAvailable` returns the timeout error,
whatever the mount table answers: each pass of the loop starts a new
one-minute timer next to the 100 ms timer, and the shorter one always fires
first. On a path that is never seen as a mount point the loop is still running
after any number of polls, its clock advanced by 100 ms per poll; when the
answer number `k + 1` is the first to show a mount point the call returns nil
at that poll. -/
theorem WaitForMountAvailable_never_times_out (fuel : Nat) (w : World) (mountpoint : GoString) :
    (WaitForMountAvailable fuel w mountpoint).1 ≠ some (some waitTimeoutError)
      ∧ ((∀ a ∈ w.probes, a.notMnt = true) →
          (WaitForMountAvailable fuel w mountpoint).1 = none
            ∧ (WaitForMountAvailable fuel w mountpoint).2.now = w.now + fuel * pollDelay)
      ∧ (∀ (pre : List Probe) (a : Probe) (rest : List Probe),
          w.probes = pre ++ a :: rest → (∀ b ∈ pre, b.notMnt = true) → a.notMnt = false →
          pre.length < fuel →
          (WaitForMountAvailable fuel w mountpoint).1 = some none
            ∧ (WaitForMountAvailable fuel w mountpoint).2.now
                = w.now + (pre.length + 1) * pollDelay) := by
  induction fuel generalizing w with
  | zero =>
    refine ⟨by simp [WaitForMountAvailable], fun _ => by simp [WaitForMountAvailable], ?_⟩
    intro pre a rest _ _ _ hlt
    simp at hlt
  | succ n ih =>
    unfold WaitForMountAvailable
    simp only [pollDelay_lt, if_true]
    rcases hpr : isLikelyNotMountPoint { w with now := w.now + pollDelay } mountpoint
      with ⟨probe, w1⟩
    have hnow := isLikelyNotMountPoint_now { w with now := w.now + pollDelay } mountpoint
    have hprobes := isLikelyNotMountPoint_probes { w with now := w.now + pollDelay } mountpoint
    rw [hpr] at hnow hprobes
    simp only at hnow hprobes
    obtain ⟨ih1, ih2, ih3⟩ := ih w1
    refine ⟨?_, ?_, ?_⟩
    · by_cases hn : probe.notMnt = true
      · simpa [hn] using ih1
      · simp [hn]
    · intro hall
      have hans := isLikelyNotMountPoint_answer { w with now := w.now + pollDelay } mountpoint hall
      rw [hpr] at hans
      simp only at hans
      have hall1 : ∀ a ∈ w1.probes, a.notMnt = true := by
        intro a ha
        rw [hprobes] at ha
        exact hall a (List.mem_of_mem_tail ha)
      obtain ⟨e1, e2⟩ := ih2 hall1
      simp only [hans, Bool.not_true, Bool.false_eq_true, if_false]
      refine ⟨e1, ?_⟩
      rw [e2, hnow]
      ring
    · intro pre a rest hw hpre ha hlt
      cases pre with
      | nil =>
        have hp : probe = a := by
          have : (isLikelyNotMountPoint { w with now := w.now + pollDelay } mountpoint).1 = a := by
            unfold isLikelyNotMountPoint
            simp [hw]
          rw [hpr] at this
          exact this
        subst hp
        simp [ha, hnow]
      | cons b pre' =>
        have hp : probe = b := by
          have : (isLikelyNotMountPoint { w with now := w.now + pollDelay } mountpoint).1 = b := by
            unfold isLikelyNotMountPoint
            simp [hw]
          rw [hpr] at this
          exact this
        subst hp
        have hb : probe.notMnt = true := hpre probe (by simp)
        simp only [hb, Bool.not_true, Bool.false_eq_true, if_false]
        have hw1 : w1.probes = pre' ++ a :: rest := by rw [hprobes]; simp [hw]
        obtain ⟨e1, e2⟩ := ih3 pre' a rest hw1 (fun c hc => hpre c (by simp [hc])) ha
          (by simpa using hlt)
        refine ⟨e1, ?_⟩
        rw [e2, hnow]
        simp only [List.length_cons]
        ring

/-- C8 on the mount table that never shows a mount: after 601 polls, 60.1
seconds on the clock, the call has not returned. -/
theorem WaitForMountAvailable_never_times_out_witness :
    (∀ a ∈ emptyWorld.probes, a.notMnt = true)
      ∧ (WaitForMountAvailable 601 emptyWorld (lit "/var/lib/kubelet/t1")).1 = none
      ∧ (WaitForMountAvailable 601 emptyWorld (lit "/var/lib/kubelet/t1")).2.now = 60100 :=
  have h := (WaitForMountAvailable_never_times_out 601 emptyWorld
    (lit "/var/lib/kubelet/t1")).2.1 (by simp [emptyWorld])
  ⟨by simp [emptyWorld], h.1, by rw [h.2]; rfl⟩

/-! ## C9: the volume locator -/

theorem scanVolumes_eq (volumeId : GoString) (pvs : List PersistentVolume) :
    scanVolumes volumeId pvs =
      match firstHandleMatch volumeId pvs with
      | none => .error (.plain (lit "volume " ++ volumeId ++ lit " not found"))
      | some c =>
        if mapIndex c.volumeAttributes (lit "remote") = [] then
          .error (.plain (lit "Missing remote volume attribute"))
        else if mapIndex c.volumeAttributes (lit "path") = [] then
          .error (.plain (lit "Missing path volume attribute"))
        else .ok { Remote := mapIndex c.volumeAttributes (lit "remote")
                   RemotePath := mapIndex c.volumeAttributes (lit "path")
                   ID := volumeId } := by
  induction pvs with
  | nil => rfl
  | cons pv rest ih =>
    unfold scanVolumes
    cases hc : pv.csi with
    | none => simpa [firstHandleMatch, hc] using ih
    | some c =>
      by_cases hh : c.volumeHandle = volumeId
      · simp [firstHandleMatch, hc, hh]
      · simpa [firstHandleMatch, hc, hh] using ih

theorem firstHandleMatch_eq_none (volumeId : GoString) (pvs : List PersistentVolume) :
    firstHandleMatch volumeId pvs = none
      ↔ ∀ pv ∈ pvs, ∀ c, pv.csi = some c → c.volumeHandle ≠ volumeId := by
  unfold firstHandleMatch
  rw [List.find?_eq_none]
  constructor
  · intro h pv hpv c hc
    have := h c (List.mem_filterMap.mpr ⟨pv, hpv, hc⟩)
    simpa using this
  · intro h c hc
    obtain ⟨pv, hpv, hpc⟩ := List.mem_filterMap.mp hc
    simpa using h pv hpv c hpc

/-- C9, as the claim states it, fails on two volumes with the same handle: the
first volume with the handle and both attributes is the second of the list,
and `GetVolumeById` returns the missing-attribute error of the first. -/
theorem GetVolumeById_stops_at_first_handle :
    firstCompleteMatch (lit "vol-1") twoVolumes
        = some ⟨lit "vol-1", [(lit "remote", lit "s3"), (lit "path", lit "bucket/data")]⟩
      ∧ (GetVolumeById { emptyWorld with volumes := twoVolumes } (lit "vol-1")).1
        = .error (.plain (lit "Missing remote volume attribute")) :=
  ⟨rfl, rfl⟩

/-- C9, amended: `GetVolumeById` returns the listing error when the listing
fails; otherwise it looks at the first volume in list order that has a CSI
source with the handle `h` (volumes without a CSI source are skipped): with no
such volume it fails with `volume h not found`, and it does so only then; when
that volume has no non-empty `remote`, or no non-empty `path`, it fails with
the missing-attribute error; otherwise it returns the handle with that
volume's `remote` and `path`. -/
theorem GetVolumeById_first_handle_match (w : World) (h : GoString) :
    (GetVolumeById w h).1 =
        (match w.nextFault with
        | some m => .error (.api m)
        | none =>
          match firstHandleMatch h w.volumes with
          | none => .error (.plain (lit "volume " ++ h ++ lit " not found"))
          | some c =>
            if mapIndex c.volumeAttributes (lit "remote") = [] then
              .error (.plain (lit "Missing remote volume attribute"))
            else if mapIndex c.volumeAttributes (lit "path") = [] then
              .error (.plain (lit "Missing path volume attribute"))
            else .ok { Remote := mapIndex c.volumeAttributes (lit "remote")
                       RemotePath := mapIndex c.volumeAttributes (lit "path")
                       ID := h })
      ∧ (w.nextFault = none →
          ((GetVolumeById w h).1 = .error (.plain (lit "volume " ++ h ++ lit " not found"))
            ↔ ∀ pv ∈ w.volumes, ∀ c, pv.csi = some c → c.volumeHandle ≠ h)) := by
  have hmain : (GetVolumeById w h).1 =
      (match w.nextFault with
      | some m => .error (.api m)
      | none => scanVolumes h w.volumes) := by
    unfold GetVolumeById listVolumes
    cases h0 : w.nextFault <;> simp [h0]
  constructor
  · rw [hmain]
    cases h0 : w.nextFault with
    | some m => rfl
    | none => simp only []; rw [scanVolumes_eq]
  · intro h0
    rw [hmain, h0]
    simp only []
    rw [scanVolumes_eq, ← firstHandleMatch_eq_none]
    cases hf : firstHandleMatch h w.volumes with
    | none => simp
    | some c =>
      simp only [reduceCtorEq, iff_false]
      split_ifs <;> simp [lit]

/-- C9, amended, on ten volumes of which the ninth alone has the handle. -/
theorem GetVolumeById_first_handle_match_witness :
    (GetVolumeById
        { emptyWorld with
          volumes := List.replicate 4 ⟨none⟩
            ++ List.replicate 4 ⟨some ⟨lit "other", [(lit "remote", lit "gcs")]⟩⟩
            ++ [⟨some ⟨lit "vol-1", [(lit "remote", lit "s3"), (lit "path", lit "bucket/data")]⟩⟩,
                ⟨some ⟨lit "vol-2", [(lit "remote", lit "s3"), (lit "path", lit "x")]⟩⟩] }
        (lit "vol-1")).1
      = .ok { Remote := lit "s3", RemotePath := lit "bucket/data", ID := lit "vol-1" } :=
  (GetVolumeById_first_handle_match _ _).1.trans rfl

/-! ## C10: the workload name -/

/-- C10, as the claim states it, fails on handles that are not ASCII: a cut
inside a two-byte character leaves a byte that lower-casing replaces by the
three bytes of U+FFFD (65 bytes in all), and lower-casing U+023A yields the
three-byte U+2C65 (87 bytes in all). Both handles are well-formed UTF-8. -/
theorem deploymentName_exceeds_63 :
    (lit "rclone-mounter-" ++ splitHandle).length = 64
      ∧ (RcloneVolume.deploymentName ⟨lit "s3", lit "bucket", splitHandle⟩).length = 65
      ∧ (lit "rclone-mounter-" ++ growingHandle).length = 63
      ∧ (RcloneVolume.deploymentName ⟨lit "s3", lit "bucket", growingHandle⟩).length = 87 := by
  decide

theorem stringsToLower_ascii (s : GoString) (h : ∀ b ∈ s, b < 0x80) :
    stringsToLower s = s.map (fun c => if 0x41 ≤ c && c ≤ 0x5A then c + 0x20 else c) := by
  unfold stringsToLower
  have : s.all (fun c => decide (c < 0x80)) = true := by
    rw [List.all_eq_true]
    intro b hb
    simpa using h b hb
  simp [this]

/-- C10, amended: for every volume handle made of ASCII bytes,
`deploymentName` returns the first 63 bytes of `rclone-mounter-` followed by
the handle, each of the letters `A` to `Z` replaced by its lower-case letter:
at most 63 bytes, exactly 63 when the prefixed name is longer than 63 bytes,
no byte in the range `A` to `Z`, and the same result for every identity with
the same handle. -/
theorem deploymentName_ascii (vol : RcloneVolume) (h : ∀ b ∈ vol.ID, b < 0x80) :
    vol.deploymentName
        = ((lit "rclone-mounter-" ++ vol.ID).take 63).map
            (fun c => if 0x41 ≤ c && c ≤ 0x5A then c + 0x20 else c)
      ∧ vol.deploymentName.length ≤ 63
      ∧ (63 < (lit "rclone-mounter-" ++ vol.ID).length → vol.deploymentName.length = 63)
      ∧ (∀ b ∈ vol.deploymentName, ¬ (0x41 ≤ b ∧ b ≤ 0x5A))
      ∧ (∀ vol2 : RcloneVolume, vol2.ID = vol.ID → vol2.deploymentName = vol.deploymentName) := by
  have hall : ∀ b ∈ lit "rclone-mounter-" ++ vol.ID, b < 0x80 := by
    intro b hb
    rcases List.mem_append.mp hb with hb | hb
    · have hpre : ∀ b ∈ lit "rclone-mounter-", b < 0x80 := by decide
      exact hpre b hb
    · exact h b hb
  have hname : vol.deploymentName
      = ((lit "rclone-mounter-" ++ vol.ID).take 63).map
          (fun c => if 0x41 ≤ c && c ≤ 0x5A then c + 0x20 else c) := by
    unfold RcloneVolume.deploymentName
    simp only []
    by_cases hl : (lit "rclone-mounter-" ++ vol.ID).length > 63
    · rw [if_pos hl]
      exact stringsToLower_ascii _ (fun b hb => hall b (List.mem_of_mem_take hb))
    · rw [if_neg hl, stringsToLower_ascii _ hall, List.take_of_length_le (by omega)]
  refine ⟨hname, ?_, ?_, ?_, ?_⟩
  · rw [hname, List.length_map, List.length_take]
    exact Nat.min_le_left _ _
  · intro hl
    rw [hname, List.length_map, List.length_take]
    omega
  · intro b hb
    rw [hname] at hb
    obtain ⟨c, -, rfl⟩ := List.mem_map.mp hb
    by_cases hc : (0x41 ≤ c && c ≤ 0x5A) = true
    · have hc' : 0x41 ≤ c ∧ c ≤ 0x5A := by simpa using hc
      simp only [hc, if_true]
      omega
    · simp only [hc, if_false]
      simpa using hc
  · intro vol2 hid
    unfold RcloneVolume.deploymentName
    rw [hid]

/-- C10, amended, at a handle of 60 capital letters. -/
theorem deploymentName_ascii_witness :
    (∀ b ∈ (RcloneVolume.mk (lit "s3") (lit "bucket") (List.replicate 60 0x41)).ID, b < 0x80)
      ∧ (RcloneVolume.mk (lit "s3") (lit "bucket") (List.replicate 60 0x41)).deploymentName.length
          = 63 :=
  ⟨by decide,
    (deploymentName_ascii ⟨lit "s3", lit "bucket", List.replicate 60 0x41⟩ (by decide)).2.2.1
      (by decide)⟩

/-! ## The controller calls -/

theorem command_trace (w : World) (cmd remote path : GoString) (flags : GoMap) :
    (command w cmd remote path flags).2.trace
      = w.trace ++ [.exec (lit "rclone") (cmd :: (remote ++ lit ":" ++ path)
          :: flags.map (fun kv => lit "--" ++ kv.1 ++ lit "=" ++ kv.2))] := by
  unfold command combinedOutput
  have hf : ∀ init : List GoString,
      flags.foldl (fun acc kv => acc ++ [lit "--" ++ kv.1 ++ lit "=" ++ kv.2]) init
        = init ++ flags.map (fun kv => lit "--" ++ kv.1 ++ lit "=" ++ kv.2) := by
    intro init
    induction flags generalizing init with
    | nil => simp
    | cons kv rest ih => simp only [List.foldl_cons]; rw [ih]; simp
  simp only [hf]
  cases h : w.nextProcess.err <;> simp [h]

theorem command_nil_iff (w : World) (cmd remote path : GoString) (flags : GoMap) :
    (command w cmd remote path flags).1 = none ↔ w.nextProcess.err = none := by
  unfold command combinedOutput
  cases h : w.nextProcess.err <;> simp [h]

theorem command_error_plain (w : World) (cmd remote path : GoString) (flags : GoMap)
    (e : GoError) (h : (command w cmd remote path flags).1 = some e) : ∃ text, e = .plain text := by
  unfold command combinedOutput at h
  cases hp : w.nextProcess.err with
  | none => simp [hp] at h
  | some e0 =>
    simp only [hp] at h
    exact ⟨_, (Option.some.inj h).symm⟩

theorem extract_noexec (w : World) (secrets : GoMap) :
    ∃ cs, (extractRcloneConf w secrets).2.trace = w.trace ++ cs
      ∧ (∀ c ∈ cs, c.isExec = false)
      ∧ (extractRcloneConf w secrets).2.processes = w.processes := by
  unfold extractRcloneConf createTemp writeFile closeFile
  cases hk : mapGet secrets (lit "rclone.conf") with
  | none => exact ⟨[], by simp, by simp, rfl⟩
  | some data =>
    simp only [call_fst]
    cases h0 : w.nextFault with
    | some m => exact ⟨[.createTemp (lit "rclone.conf")], by simp, by simp [Call.isExec], rfl⟩
    | none =>
      simp only []
      cases h1 : World.nextFault
          { (w.call (.createTemp (lit "rclone.conf"))).2 with
            tempNames := (w.call (.createTemp (lit "rclone.conf"))).2.tempNames.tail } with
      | some m =>
        exact ⟨[.createTemp (lit "rclone.conf"),
          .writeFile ((w.call (.createTemp (lit "rclone.conf"))).2.nextTempName (lit "rclone.conf"))
            data], by simp, by simp [Call.isExec], rfl⟩
      | none =>
        simp only [Option.map_none']
        cases h2 : World.nextFault
            (World.call { (w.call (.createTemp (lit "rclone.conf"))).2 with
              tempNames := (w.call (.createTemp (lit "rclone.conf"))).2.tempNames.tail }
              (.writeFile ((w.call (.createTemp (lit "rclone.conf"))).2.nextTempName
                (lit "rclone.conf")) data)).2 with
        | some m =>
          exact ⟨[.createTemp (lit "rclone.conf"),
            .writeFile ((w.call (.createTemp (lit "rclone.conf"))).2.nextTempName
              (lit "rclone.conf")) data,
            .closeFile ((w.call (.createTemp (lit "rclone.conf"))).2.nextTempName
              (lit "rclone.conf"))], by simp, by simp [Call.isExec], rfl⟩
        | none =>
          exact ⟨[.createTemp (lit "rclone.conf"),
            .writeFile ((w.call (.createTemp (lit "rclone.conf"))).2.nextTempName
              (lit "rclone.conf")) data,
            .closeFile ((w.call (.createTemp (lit "rclone.conf"))).2.nextTempName
              (lit "rclone.conf"))], by simp, by simp [Call.isExec], rfl⟩

theorem nextProcess_congr (w1 w2 : World) (h : w1.processes = w2.processes) :
    w1.nextProcess = w2.nextProcess := by
  unfold World.nextProcess
  rw [h]

theorem extract_missing_key (w : World) (secrets : GoMap)
    (hk : mapGet secrets (lit "rclone.conf") = none) :
    extractRcloneConf w secrets
      = (.error (.plain (lit "rclone.conf key in secret not found")), w) := by
  unfold extractRcloneConf
  simp [hk]

theorem extract_spec (w : World) (secrets : GoMap) (data : GoString)
    (hk : mapGet secrets (lit "rclone.conf") = some data) :
    ((∀ f ∈ w.faults.take 3, f = none) →
        (extractRcloneConf w secrets).1 = .ok (w.nextTempName (lit "rclone.conf")))
      ∧ (∀ name, (extractRcloneConf w secrets).1 = .ok name →
          name = w.nextTempName (lit "rclone.conf")
            ∧ (extractRcloneConf w secrets).2.trace
                = w.trace ++ [.createTemp (lit "rclone.conf"), .writeFile name data,
                    .closeFile name]) := by
  unfold extractRcloneConf createTemp writeFile closeFile
  simp only [hk, call_fst]
  cases h0 : w.nextFault with
  | some m =>
    refine ⟨fun hc => ?_, fun name h => by simp at h⟩
    rw [nextFault_of_clear w 2 hc] at h0
    simp at h0
  | none =>
    simp only []
    cases h1 : World.nextFault
        { (w.call (.createTemp (lit "rclone.conf"))).2 with
          tempNames := (w.call (.createTemp (lit "rclone.conf"))).2.tempNames.tail } with
    | some m =>
      refine ⟨fun hc => ?_, fun name h => by simp at h⟩
      have := nextFault_of_clear
        { (w.call (.createTemp (lit "rclone.conf"))).2 with
          tempNames := (w.call (.createTemp (lit "rclone.conf"))).2.tempNames.tail } 1
        (by simpa using clear_tail _ 2 hc)
      rw [this] at h1
      simp at h1
    | none =>
      simp only [Option.map_none']
      cases h2 : World.nextFault
          (World.call { (w.call (.createTemp (lit "rclone.conf"))).2 with
            tempNames := (w.call (.createTemp (lit "rclone.conf"))).2.tempNames.tail }
            (.writeFile ((w.call (.createTemp (lit "rclone.conf"))).2.nextTempName
              (lit "rclone.conf")) data)).2 with
      | some m =>
        refine ⟨fun hc => ?_, fun name h => by simp at h⟩
        have := nextFault_of_clear
          (World.call { (w.call (.createTemp (lit "rclone.conf"))).2 with
            tempNames := (w.call (.createTemp (lit "rclone.conf"))).2.tempNames.tail }
            (.writeFile ((w.call (.createTemp (lit "rclone.conf"))).2.nextTempName
              (lit "rclone.conf")) data)).2 0
          (by simpa using clear_tail _ 1 (clear_tail _ 2 hc))
        rw [this] at h2
        simp at h2
      | none =>
        simp only [Option.map_none']
        refine ⟨fun _ => rfl, fun name h => ?_⟩
        have hn : (w.call (.createTemp (lit "rclone.conf"))).2.nextTempName (lit "rclone.conf")
            = name := by simpa using h
        subst hn
        exact ⟨rfl, by simp⟩

/-- What `CreateVolume` does on a request that passes every check. -/
theorem CreateVolume_accepted (w : World) (req : CreateVolumeRequest) (newUUID : GoString)
    (data remote path : GoString)
    (hn : req.name ≠ []) (hc : req.volumeCapabilities ≠ [])
    (hk : mapGet req.secrets (lit "rclone.conf") = some data)
    (hr : mapGet req.parameters (lit "remote") = some remote)
    (hp : mapGet req.parameters (lit "path") = some path) :
    ((∀ f ∈ w.faults.take 3, f = none) →
        (CreateVolume w req newUUID).2.trace
            = w.trace ++ [.createTemp (lit "rclone.conf"),
                .writeFile (w.nextTempName (lit "rclone.conf")) data,
                .closeFile (w.nextTempName (lit "rclone.conf")),
                .exec (lit "rclone") [lit "mkdir", remote ++ lit ":" ++ (path ++ lit "/" ++ req.name),
                  lit "--config=" ++ w.nextTempName (lit "rclone.conf")]]
          ∧ (w.nextProcess.err = none →
              (CreateVolume w req newUUID).1
                = .ok { capacityBytes := req.requiredBytes, volumeId := newUUID,
                        volumeContext := [(lit "remote", remote),
                          (lit "path", path ++ lit "/" ++ req.name)] })
          ∧ (∀ e, w.nextProcess.err = some e →
              ∃ text, (CreateVolume w req newUUID).1 = .error (.plain text)))
      ∧ (∀ resp, (CreateVolume w req newUUID).1 = .ok resp →
          resp = { capacityBytes := req.requiredBytes, volumeId := newUUID,
                   volumeContext := [(lit "remote", remote),
                     (lit "path", path ++ lit "/" ++ req.name)] }
            ∧ (CreateVolume w req newUUID).2.trace
              = w.trace ++ [.createTemp (lit "rclone.conf"),
                  .writeFile (w.nextTempName (lit "rclone.conf")) data,
                  .closeFile (w.nextTempName (lit "rclone.conf")),
                  .exec (lit "rclone") [lit "mkdir",
                    remote ++ lit ":" ++ (path ++ lit "/" ++ req.name),
                    lit "--config=" ++ w.nextTempName (lit "rclone.conf")]]) := by
  obtain ⟨hclear, hok⟩ := extract_spec w req.secrets data hk
  obtain ⟨cs, -, -, hproc⟩ := extract_noexec w req.secrets
  have hlen : ¬ req.name.length = 0 := by simpa using hn
  have hcap : ¬ req.volumeCapabilities.length = 0 := by simpa using hc
  unfold CreateVolume
  simp only [hlen, hcap, if_false]
  rcases he : extractRcloneConf w req.secrets with ⟨r, w1⟩
  rw [he] at hclear hok hproc
  simp only at hclear hok hproc
  cases r with
  | error err =>
    refine ⟨fun hcl => ?_, fun resp h => by simp at h⟩
    have := hclear hcl
    simp at this
  | ok name =>
    obtain ⟨hname, htr⟩ := hok name rfl
    subst hname
    simp only [hr, hp]
    unfold CreateVol
    have hct := command_trace w1 (lit "mkdir") remote (path ++ lit "/" ++ req.name)
      [(lit "config", w.nextTempName (lit "rclone.conf"))]
    have hcn := command_nil_iff w1 (lit "mkdir") remote (path ++ lit "/" ++ req.name)
      [(lit "config", w.nextTempName (lit "rclone.conf"))]
    have hce := command_error_plain w1 (lit "mkdir") remote (path ++ lit "/" ++ req.name)
      [(lit "config", w.nextTempName (lit "rclone.conf"))]
    rw [nextProcess_congr w1 w hproc] at hcn
    rcases hcmd : command w1 (lit "mkdir") remote (path ++ lit "/" ++ req.name)
      [(lit "config", w.nextTempName (lit "rclone.conf"))] with ⟨e, w2⟩
    rw [hcmd] at hct hcn hce
    simp only at hct hcn hce
    have htrace : w2.trace = w.trace ++ [.createTemp (lit "rclone.conf"),
        .writeFile (w.nextTempName (lit "rclone.conf")) data,
        .closeFile (w.nextTempName (lit "rclone.conf")),
        .exec (lit "rclone") [lit "mkdir", remote ++ lit ":" ++ (path ++ lit "/" ++ req.name),
          lit "--config=" ++ w.nextTempName (lit "rclone.conf")]] := by
      rw [hct, htr]
      simp [lit]
    cases e with
    | none =>
      refine ⟨fun _ => ⟨htrace, fun _ => rfl, fun e0 he0 => ?_⟩, fun resp h => ?_⟩
      · rw [hcn.mp rfl] at he0
        simp at he0
      · simp only at h
        exact ⟨(Except.ok.inj h).symm, htrace⟩
    | some e1 =>
      refine ⟨fun _ => ⟨htrace, fun hnone => ?_, fun e0 _ => ?_⟩, fun resp h => by simp at h⟩
      · have := hcn.mpr hnone
        simp at this
      · obtain ⟨text, rfl⟩ := hce e1 rfl
        exact ⟨text, rfl⟩

/-- What `CreateVolume` does on a request that fails a check. -/
theorem CreateVolume_rejected (w : World) (req : CreateVolumeRequest) (newUUID : GoString)
    (h : req.name = [] ∨ req.volumeCapabilities = []
      ∨ mapGet req.secrets (lit "rclone.conf") = none
      ∨ mapGet req.parameters (lit "remote") = none
      ∨ mapGet req.parameters (lit "path") = none) :
    (∃ msg, (CreateVolume w req newUUID).1 = .error (.status .invalidArgument msg))
      ∧ ∃ cs, (CreateVolume w req newUUID).2.trace = w.trace ++ cs
          ∧ ∀ c ∈ cs, c.isExec = false := by
  unfold CreateVolume
  by_cases hn : req.name.length = 0
  · simp only [hn, if_true]
    exact ⟨⟨_, rfl⟩, [], by simp, by simp⟩
  · by_cases hc : req.volumeCapabilities.length = 0
    · simp only [hn, hc, if_true, if_false]
      exact ⟨⟨_, rfl⟩, [], by simp, by simp⟩
    · simp only [hn, hc, if_false]
      obtain ⟨cs, htr, hcs, -⟩ := extract_noexec w req.secrets
      rcases he : extractRcloneConf w req.secrets with ⟨r, w1⟩
      rw [he] at htr
      simp only at htr
      cases r with
      | error err => exact ⟨⟨_, rfl⟩, cs, htr, hcs⟩
      | ok name =>
        simp only []
        cases hr : mapGet req.parameters (lit "remote") with
        | none => exact ⟨⟨_, rfl⟩, cs, htr, hcs⟩
        | some remote =>
          simp only []
          cases hp : mapGet req.parameters (lit "path") with
          | none => exact ⟨⟨_, rfl⟩, cs, htr, hcs⟩
          | some path =>
            exfalso
            rcases h with h | h | h | h | h
            · exact hn (by simp [h])
            · exact hc (by simp [h])
            · rw [extract_missing_key w req.secrets h] at he
              simp at he
            · rw [hr] at h; simp at h
            · rw [hp] at h; simp at h

/-- A request on which `CreateVolume` succeeds passes every check. -/
theorem CreateVolume_ok_inv (w : World) (req : CreateVolumeRequest) (newUUID : GoString)
    (resp : CreateVolumeResponse) (h : (CreateVolume w req newUUID).1 = .ok resp) :
    req.name ≠ [] ∧ req.volumeCapabilities ≠ []
      ∧ (∃ data, mapGet req.secrets (lit "rclone.conf") = some data)
      ∧ (∃ remote, mapGet req.parameters (lit "remote") = some remote)
      ∧ (∃ path, mapGet req.parameters (lit "path") = some path) := by
  have key : ∀ (hd : req.name = [] ∨ req.volumeCapabilities = []
      ∨ mapGet req.secrets (lit "rclone.conf") = none
      ∨ mapGet req.parameters (lit "remote") = none
      ∨ mapGet req.parameters (lit "path") = none), False := by
    intro hd
    obtain ⟨⟨msg, hm⟩, -⟩ := CreateVolume_rejected w req newUUID hd
    rw [hm] at h
    simp at h
  refine ⟨fun h1 => key (Or.inl h1), fun h2 => key (Or.inr (Or.inl h2)), ?_, ?_, ?_⟩
  · cases hk : mapGet req.secrets (lit "rclone.conf") with
    | none => exact (key (Or.inr (Or.inr (Or.inl hk)))).elim
    | some d => exact ⟨d, rfl⟩
  · cases hk : mapGet req.parameters (lit "remote") with
    | none => exact (key (Or.inr (Or.inr (Or.inr (Or.inl hk))))).elim
    | some d => exact ⟨d, rfl⟩
  · cases hk : mapGet req.parameters (lit "path") with
    | none => exact (key (Or.inr (Or.inr (Or.inr (Or.inr hk))))).elim
    | some d => exact ⟨d, rfl⟩

/-! ## C11: validation in `CreateVolume` -/

/-- C11, as the claim states it, fails on a request whose parameter `remote` is
present and empty: `CreateVolume` does not reject it, runs `rclone mkdir` on
`:bucket/data/pvc-1` and returns the volume. -/
theorem CreateVolume_accepts_empty_remote :
    mapGet emptyRemoteRequest.parameters (lit "remote") = some []
      ∧ (CreateVolume emptyWorld emptyRemoteRequest (lit "uuid-1")).1
        = .ok { capacityBytes := 0, volumeId := lit "uuid-1",
                volumeContext := [(lit "remote", []), (lit "path", lit "bucket/data/pvc-1")] }
      ∧ Call.exec (lit "rclone")
          [lit "mkdir", lit ":bucket/data/pvc-1", lit "--config=/tmp/rclone.conf"]
        ∈ (CreateVolume emptyWorld emptyRemoteRequest (lit "uuid-1")).2.trace :=
  ⟨by decide, rfl, by decide⟩

/-- C11, amended: `CreateVolume` returns an InvalidArgument error, and runs no
process, when the name is empty, the capability list is empty, the secrets
lack `rclone.conf`, or the parameters lack the key `remote` or the key `path`
(an empty value under the key is not rejected). On every other request, when
the three temporary-file calls go through, it writes the config to a
temporary file and runs `rclone mkdir <remote>:<path>/<name>
--config=<file>` once; it then returns the volume with the context `remote`,
`path/name` when the process exits with status zero, and the error of the
command, which is not an InvalidArgument status, otherwise. -/
theorem CreateVolume_validation (w : World) (req : CreateVolumeRequest) (newUUID : GoString) :
    ((req.name = [] ∨ req.volumeCapabilities = []
          ∨ mapGet req.secrets (lit "rclone.conf") = none
          ∨ mapGet req.parameters (lit "remote") = none
          ∨ mapGet req.parameters (lit "path") = none) →
        (∃ msg, (CreateVolume w req newUUID).1 = .error (.status .invalidArgument msg))
          ∧ ∃ cs, (CreateVolume w req newUUID).2.trace = w.trace ++ cs
              ∧ ∀ c ∈ cs, c.isExec = false)
      ∧ (∀ data remote path, req.name ≠ [] → req.volumeCapabilities ≠ [] →
          mapGet req.secrets (lit "rclone.conf") = some data →
          mapGet req.parameters (lit "remote") = some remote →
          mapGet req.parameters (lit "path") = some path →
          (∀ f ∈ w.faults.take 3, f = none) →
          (CreateVolume w req newUUID).2.trace
              = w.trace ++ [.createTemp (lit "rclone.conf"),
                  .writeFile (w.nextTempName (lit "rclone.conf")) data,
                  .closeFile (w.nextTempName (lit "rclone.conf")),
                  .exec (lit "rclone") [lit "mkdir",
                    remote ++ lit ":" ++ (path ++ lit "/" ++ req.name),
                    lit "--config=" ++ w.nextTempName (lit "rclone.conf")]]
            ∧ (w.nextProcess.err = none →
                (CreateVolume w req newUUID).1
                  = .ok { capacityBytes := req.requiredBytes, volumeId := newUUID,
                          volumeContext := [(lit "remote", remote),
                            (lit "path", path ++ lit "/" ++ req.name)] })
            ∧ (∀ e, w.nextProcess.err = some e →
                ∃ text, (CreateVolume w req newUUID).1 = .error (.plain text))
            ∧ ¬ ∃ msg, (CreateVolume w req newUUID).1
                = .error (.status .invalidArgument msg)) := by
  refine ⟨CreateVolume_rejected w req newUUID, ?_⟩
  intro data remote path hn hc hk hr hp hcl
  obtain ⟨h1, h2, h3⟩ := (CreateVolume_accepted w req newUUID data remote path hn hc hk hr hp).1 hcl
  refine ⟨h1, h2, h3, ?_⟩
  rintro ⟨msg, hm⟩
  cases he : w.nextProcess.err with
  | none => rw [h2 he] at hm; simp at hm
  | some e =>
    obtain ⟨text, ht⟩ := h3 e he
    rw [ht] at hm
    simp at hm

/-- C11, amended, at the sample request on the empty cluster. -/
theorem CreateVolume_validation_witness :
    sampleCreateRequest.name ≠ [] ∧ sampleCreateRequest.volumeCapabilities ≠ []
      ∧ (∀ f ∈ emptyWorld.faults.take 3, f = none)
      ∧ emptyWorld.nextProcess.err = none
      ∧ (CreateVolume emptyWorld sampleCreateRequest (lit "uuid-1")).1
        = .ok { capacityBytes := 0, volumeId := lit "uuid-1",
                volumeContext := [(lit "remote", lit "s3"),
                  (lit "path", lit "bucket/data" ++ lit "/" ++ lit "pvc-1")] } :=
  ⟨by decide, by decide, by decide, rfl,
    ((CreateVolume_validation emptyWorld sampleCreateRequest (lit "uuid-1")).2
      (lit "[s3]") (lit "s3") (lit "bucket/data") (by decide) (by decide) (by decide)
      (by decide) (by decide) (by decide)).2.1 rfl⟩

/-! ## C12: the command runner -/

theorem foldl_flags (flags : GoMap) (init : List GoString) :
    flags.foldl (fun acc kv => acc ++ [lit "--" ++ kv.1 ++ lit "=" ++ kv.2]) init
      = init ++ flags.map (fun kv => lit "--" ++ kv.1 ++ lit "=" ++ kv.2) := by
  induction flags generalizing init with
  | nil => simp
  | cons kv rest ih => simp only [List.foldl_cons]; rw [ih]; simp

theorem quoteBody_plain (s : GoString) (fuel : Nat) (hf : s.length ≤ fuel)
    (hs : ∀ b ∈ s, 0x20 ≤ b ∧ b < 0x7F ∧ b ≠ 0x22 ∧ b ≠ 0x5C) : quoteBody fuel s = s := by
  induction s generalizing fuel with
  | nil => cases fuel <;> rfl
  | cons b rest ih =>
    cases fuel with
    | zero => simp at hf
    | succ n =>
      obtain ⟨h1, h2, h3, h4⟩ := hs b (by simp)
      have hlt : b < 0x80 := by omega
      have hne : b ≠ runeError := by unfold runeError; omega
      have hp : strconvIsPrint b = true := by
        unfold strconvIsPrint
        have : b ≤ 0xFF := by omega
        simp [this]
        omega
      have he : appendEscapedRune b = [b] := by
        unfold appendEscapedRune encodeRune
        simp [h3, h4, hp, hlt]
      unfold quoteBody
      simp only [hlt, if_true, hne, decide_False, Bool.and_false, Bool.false_eq_true, if_false, he]
      rw [List.drop_one, List.tail_cons, ih n (by simpa using hf) (fun c hc => hs c (by simp [hc]))]
      rfl

/-- C12, as the claim states it, fails on an output with a line feed: `%q`
writes the two bytes backslash and `n`, and the error text does not contain
the three bytes of the output. -/
theorem command_output_is_quoted :
    (command failingProcessWorld (lit "mkdir") (lit "s3") (lit "bucket/data/pvc-1")
        [(lit "config", lit "/tmp/rclone.conf")]).1
      = some (.plain (lit "mkdir failed: exit status 1 cmd: " ++ [0x27] ++ lit "rclone" ++ [0x27]
          ++ lit " remote: " ++ [0x27] ++ lit ":s3:bucket/data/pvc-1" ++ [0x27]
          ++ lit " output: " ++ [0x22, 0x61, 0x5C, 0x6E, 0x62, 0x22]))
      ∧ failingProcessWorld.nextProcess.output = [0x61, 0x0A, 0x62]
      ∧ ¬ [0x61, 0x0A, 0x62] <:+: (lit "mkdir failed: exit status 1 cmd: " ++ [0x27]
          ++ lit "rclone" ++ [0x27] ++ lit " remote: " ++ [0x27] ++ lit ":s3:bucket/data/pvc-1"
          ++ [0x27] ++ lit " output: " ++ [0x22, 0x61, 0x5C, 0x6E, 0x62, 0x22]) := by
  refine ⟨by decide, by decide, ?_⟩
  intro h
  have : (0x0A : Nat) ∈ (lit "mkdir failed: exit status 1 cmd: " ++ [0x27]
          ++ lit "rclone" ++ [0x27] ++ lit " remote: " ++ [0x27] ++ lit ":s3:bucket/data/pvc-1"
          ++ [0x27] ++ lit " output: " ++ [0x22, 0x61, 0x5C, 0x6E, 0x62, 0x22]) :=
    h.subset (by simp)
  revert this
  decide

/-- C12, amended: `Rclone.command` runs `rclone` once with the arguments verb,
`<remote>:<path>` and `--k=v` for every flag, and returns nil exactly when the
process ends without error. When the process fails with the error `e`, the
returned text is the verb, ` failed: `, `e`, the fixed words and
`':<remote>:<path>'`, then ` output: ` and the output as `strconv.Quote` writes
it; it contains the verb, `<remote>:<path>` and the quoted output, and it
contains the output itself when every byte of the output is printable ASCII
other than the double quote and the backslash. -/
theorem command_runs_and_reports (w : World) (cmd remote path : GoString) (flags : GoMap) :
    (command w cmd remote path flags).2.trace
        = w.trace ++ [.exec (lit "rclone") (cmd :: (remote ++ lit ":" ++ path)
            :: flags.map (fun kv => lit "--" ++ kv.1 ++ lit "=" ++ kv.2))]
      ∧ ((command w cmd remote path flags).1 = none ↔ w.nextProcess.err = none)
      ∧ (∀ e, w.nextProcess.err = some e →
          ∃ text, (command w cmd remote path flags).1 = some (.plain text)
            ∧ text = cmd ++ lit " failed: " ++ e ++ lit " cmd: " ++ [0x27] ++ lit "rclone"
                ++ [0x27] ++ lit " remote: " ++ [0x27] ++ lit ":" ++ remote ++ lit ":" ++ path
                ++ [0x27] ++ lit " output: " ++ strconvQuote w.nextProcess.output
            ∧ cmd <:+: text
            ∧ (remote ++ lit ":" ++ path) <:+: text
            ∧ strconvQuote w.nextProcess.output <:+: text
            ∧ ((∀ b ∈ w.nextProcess.output, 0x20 ≤ b ∧ b < 0x7F ∧ b ≠ 0x22 ∧ b ≠ 0x5C) →
                w.nextProcess.output <:+: text)) := by
  unfold command combinedOutput
  simp only [foldl_flags]
  cases h : w.nextProcess.err with
  | none => simp
  | some e0 =>
    refine ⟨by simp, by simp, ?_⟩
    intro e he
    cases he
    refine ⟨cmd ++ lit " failed: " ++ e0 ++ lit " cmd: " ++ [0x27] ++ lit "rclone"
        ++ [0x27] ++ lit " remote: " ++ [0x27] ++ lit ":" ++ remote ++ lit ":" ++ path
        ++ [0x27] ++ lit " output: " ++ strconvQuote w.nextProcess.output, rfl, rfl, ?_, ?_, ?_, ?_⟩
    · exact ⟨[], lit " failed: " ++ e0 ++ lit " cmd: " ++ [0x27] ++ lit "rclone"
        ++ [0x27] ++ lit " remote: " ++ [0x27] ++ lit ":" ++ remote ++ lit ":" ++ path
        ++ [0x27] ++ lit " output: " ++ strconvQuote w.nextProcess.output, by simp⟩
    · exact ⟨cmd ++ lit " failed: " ++ e0 ++ lit " cmd: " ++ [0x27] ++ lit "rclone"
        ++ [0x27] ++ lit " remote: " ++ [0x27] ++ lit ":",
        [0x27] ++ lit " output: " ++ strconvQuote w.nextProcess.output, by simp⟩
    · exact ⟨cmd ++ lit " failed: " ++ e0 ++ lit " cmd: " ++ [0x27] ++ lit "rclone"
        ++ [0x27] ++ lit " remote: " ++ [0x27] ++ lit ":" ++ remote ++ lit ":" ++ path
        ++ [0x27] ++ lit " output: ", [], by simp⟩
    · intro hs
      unfold strconvQuote
      rw [quoteBody_plain _ _ (le_refl _) hs]
      exact ⟨cmd ++ lit " failed: " ++ e0 ++ lit " cmd: " ++ [0x27] ++ lit "rclone"
        ++ [0x27] ++ lit " remote: " ++ [0x27] ++ lit ":" ++ remote ++ lit ":" ++ path
        ++ [0x27] ++ lit " output: " ++ [0x22], [0x22], by simp⟩

/-- C12, amended, at a process that fails with the output `denied`. -/
theorem command_runs_and_reports_witness :
    ({ emptyWorld with processes := [⟨lit "denied", some (lit "exit status 1")⟩] } :
        World).nextProcess.err = some (lit "exit status 1")
      ∧ (command { emptyWorld with processes := [⟨lit "denied", some (lit "exit status 1")⟩] }
          (lit "mkdir") (lit "s3") (lit "bucket/data/pvc-1")
          [(lit "config", lit "/tmp/rclone.conf")]).1
        = some (.plain (lit "mkdir failed: exit status 1 cmd: " ++ [0x27] ++ lit "rclone"
            ++ [0x27] ++ lit " remote: " ++ [0x27] ++ lit ":s3:bucket/data/pvc-1" ++ [0x27]
            ++ lit " output: " ++ [0x22] ++ lit "denied" ++ [0x22])) :=
  by
    obtain ⟨text, h1, h2, -⟩ := (command_runs_and_reports
      { emptyWorld with processes := [⟨lit "denied", some (lit "exit status 1")⟩] }
      (lit "mkdir") (lit "s3") (lit "bucket/data/pvc-1")
      [(lit "config", lit "/tmp/rclone.conf")]).2.2 (lit "exit status 1") rfl
    exact ⟨rfl, h1.trans (by rw [h2]; decide)⟩

/-! ## C13: errors on unpublish -/

/-- C13: on a valid unpublish request whose volume resolves,
`NodeUnpublishVolume` returns the success response whatever `Unmount` and the
unmount of the host path return: both results are dropped. -/
theorem NodeUnpublishVolume_drops_errors (w : World) (req : NodeUnpublishVolumeRequest)
    (vol : RcloneVolume)
    (hv : validateUnPublishVolumeRequest req = none)
    (hg : (GetVolumeById w req.volumeId).1 = .ok vol) :
    (NodeUnpublishVolume w req).1 = .ok
      ∧ (NodeUnpublishVolume w req).2
        = (unmountPath (Unmount (GetVolumeById w req.volumeId).2 vol).2 req.targetPath).2 := by
  have ht : ¬ req.targetPath.length = 0 := by
    unfold validateUnPublishVolumeRequest at hv
    by_cases h1 : req.volumeId = []
    · simp [h1] at hv
    · by_cases h2 : req.targetPath = []
      · simp [h1, h2] at hv
      · simpa using h2
  unfold NodeUnpublishVolume
  simp only [hv, ht, if_false]
  rcases hgv : GetVolumeById w req.volumeId with ⟨r, w1⟩
  rw [hgv] at hg
  simp only at hg
  subst hg
  exact ⟨rfl, rfl⟩

/-- C13 at a cluster whose API fails the deletion of the Deployment: `Unmount`
returns the failure and the handler answers with success. -/
theorem NodeUnpublishVolume_drops_errors_witness :
    validateUnPublishVolumeRequest sampleUnpublish = none
      ∧ (GetVolumeById brokenApiWorld sampleUnpublish.volumeId).1
        = .ok ⟨lit "s3", lit "bucket/data", lit "vol-1"⟩
      ∧ (Unmount (GetVolumeById brokenApiWorld sampleUnpublish.volumeId).2
          ⟨lit "s3", lit "bucket/data", lit "vol-1"⟩).1
        = some (.api (lit "etcdserver: request timed out"))
      ∧ (NodeUnpublishVolume brokenApiWorld sampleUnpublish).1 = .ok :=
  ⟨by decide, rfl, by decide,
    (NodeUnpublishVolume_drops_errors brokenApiWorld sampleUnpublish
      ⟨lit "s3", lit "bucket/data", lit "vol-1"⟩ (by decide) rfl).1⟩

/-! ## C14: the target of create and delete -/

/-- C14: when `CreateVolume` succeeds, the one process it runs is `rclone mkdir
<remote>:<path>/<name> --config=<file>`, and `DeleteVol` on the volume built
from the returned context (`Remote` its `remote`, `RemotePath` its `path`)
runs `rclone rmdirs` with the same `<remote>:<path>/<name>` argument and with
the one flag `--config=` followed by its config path. -/
theorem CreateVol_DeleteVol_same_target (w w2 : World) (req : CreateVolumeRequest)
    (newUUID conf2 : GoString) (resp : CreateVolumeResponse)
    (h : (CreateVolume w req newUUID).1 = .ok resp) :
    ∃ target conf data,
      target = mapIndex req.parameters (lit "remote") ++ lit ":"
          ++ (mapIndex req.parameters (lit "path") ++ lit "/" ++ req.name)
        ∧ (CreateVolume w req newUUID).2.trace
          = w.trace ++ [.createTemp (lit "rclone.conf"), .writeFile conf data, .closeFile conf,
              .exec (lit "rclone") [lit "mkdir", target, lit "--config=" ++ conf]]
        ∧ (DeleteVol w2
            { Remote := mapIndex resp.volumeContext (lit "remote")
              RemotePath := mapIndex resp.volumeContext (lit "path")
              ID := resp.volumeId } conf2).2.trace
          = w2.trace ++ [.exec (lit "rclone") [lit "rmdirs", target, lit "--config=" ++ conf2]] := by
  obtain ⟨hn, hc, ⟨data, hk⟩, ⟨remote, hr⟩, ⟨path, hp⟩⟩ := CreateVolume_ok_inv w req newUUID resp h
  obtain ⟨hresp, htr⟩ :=
    (CreateVolume_accepted w req newUUID data remote path hn hc hk hr hp).2 resp h
  have e1 : mapIndex req.parameters (lit "remote") = remote := by simp [mapIndex, hr]
  have e2 : mapIndex req.parameters (lit "path") = path := by simp [mapIndex, hp]
  have e3 : mapIndex [(lit "remote", remote), (lit "path", path ++ lit "/" ++ req.name)]
      (lit "remote") = remote := by
    simp [mapIndex, mapGet]
  have e4 : mapIndex [(lit "remote", remote), (lit "path", path ++ lit "/" ++ req.name)]
      (lit "path") = path ++ lit "/" ++ req.name := by
    have hne : lit "remote" ≠ lit "path" := by decide
    simp [mapIndex, mapGet, hne]
  refine ⟨_, w.nextTempName (lit "rclone.conf"), data, rfl, ?_, ?_⟩
  · rw [htr, e1, e2]
  · unfold DeleteVol
    rw [command_trace, hresp]
    simp only [e1, e2, e3, e4]
    simp [lit]

/-- C14 at the sample request: create on the empty cluster, then delete. -/
theorem CreateVol_DeleteVol_same_target_witness :
    (CreateVolume emptyWorld sampleCreateRequest (lit "uuid-1")).1
        = .ok { capacityBytes := 0, volumeId := lit "uuid-1",
                volumeContext := [(lit "remote", lit "s3"), (lit "path", lit "bucket/data/pvc-1")] }
      ∧ ∃ target conf data,
        target = mapIndex sampleCreateRequest.parameters (lit "remote") ++ lit ":"
            ++ (mapIndex sampleCreateRequest.parameters (lit "path") ++ lit "/"
              ++ sampleCreateRequest.name)
          ∧ (CreateVolume emptyWorld sampleCreateRequest (lit "uuid-1")).2.trace
            = emptyWorld.trace ++ [.createTemp (lit "rclone.conf"), .writeFile conf data,
                .closeFile conf,
                .exec (lit "rclone") [lit "mkdir", target, lit "--config=" ++ conf]]
          ∧ (DeleteVol emptyWorld
              { Remote := mapIndex [(lit "remote", lit "s3"), (lit "path", lit "bucket/data/pvc-1")]
                  (lit "remote")
                RemotePath := mapIndex
                  [(lit "remote", lit "s3"), (lit "path", lit "bucket/data/pvc-1")] (lit "path")
                ID := lit "uuid-1" } (lit "/tmp/rclone.conf2")).2.trace
            = emptyWorld.trace
              ++ [.exec (lit "rclone") [lit "rmdirs", target, lit "--config=" ++ lit "/tmp/rclone.conf2"]] :=
  ⟨rfl, CreateVol_DeleteVol_same_target emptyWorld emptyWorld sampleCreateRequest (lit "uuid-1")
    (lit "/tmp/rclone.conf2")
    { capacityBytes := 0, volumeId := lit "uuid-1",
      volumeContext := [(lit "remote", lit "s3"), (lit "path", lit "bucket/data/pvc-1")] } rfl⟩

end CsiRclone
